import Mathlib

/-!
# Temperature monitor: scheduler and display-update state machine

Shallow embedding of `display/code/src/main.cpp`.

* `unsigned long` timestamps are natural numbers below `2 ^ ULONG_BITS`
  (32 bits on the Feather ESP8266 the sketch targets); subtraction is taken
  modulo `2 ^ ULONG_BITS`.
* `float` readings are exact rationals.  The scheduler only stores them and
  compares them with `DEFAULT_DATA_VALUE`; the one computation on them, `cToF`, is
  given both over exact arithmetic (`cToF`) and with the rounding of the C code
  (`cToF32`), which is what `updateDisplay` formats.
* The global `st` is passed explicitly; every function returns the new state
  together with the calls it made on the external collaborators, in order.
* The collaborators that live outside the sketch (panel geometry, colour
  constants, `snprintf`) are gathered in `Platform`.
-/

namespace TemperatureMonitor

/-! ## Constants (lines 17-35) -/

/-- Line 18: `#define ONE_SECOND 1000`. -/
def ONE_SECOND : Nat := 1000

/-- Line 19: `#define ONE_MINUTE 60 * ONE_SECOND`. -/
def ONE_MINUTE : Nat := 60 * ONE_SECOND

/-- Line 26 (`FAST_DISPLAY_UPDATES` is 0): `(5 * ONE_MINUTE)`. -/
def DISPLAY_UPDATE_INTERVAL : Nat := 5 * ONE_MINUTE

/-- Line 29: `(1 * ONE_MINUTE)`. -/
def FEED_GET_INTERVAL : Nat := 1 * ONE_MINUTE

/-- Line 30: `(5 * ONE_SECOND)`. -/
def IO_RUN_INTERVAL : Nat := 5 * ONE_SECOND

/-- Line 34: `#define BORDER_WIDTH 3`. -/
def BORDER_WIDTH : Int := 3

/-- Line 35: `#define DEFAULT_DATA_VALUE -50.0`. -/
def DEFAULT_DATA_VALUE : ℚ := -50

/-- Width in bits of `unsigned long` on the target (ESP8266). -/
def ULONG_BITS : Nat := 32

/-- Unsigned subtraction `a - b` of two `w`-bit values: the result modulo `2 ^ w`.
The complement of `b` is the left operand of the sum, so that the term does not
reduce on a symbolic `a`. -/
def usub (w a b : Nat) : Nat := ((2 ^ w - b % 2 ^ w) + a % 2 ^ w) % 2 ^ w

/-- The due-check `now - lastFiredAt >= interval` on `unsigned long` operands. -/
def due (now lastFiredAt interval : Nat) : Bool :=
  decide (interval ≤ usub ULONG_BITS now lastFiredAt)

/-! ## Data model (lines 55-71) -/

/-- The `ProgramState` struct, lines 55-69. -/
structure ProgramState where
  previousRunMillis : Nat
  previousFeedMillis : Nat
  previousUpdateMillis : Nat
  tempUpdated : Bool
  humidityUpdated : Bool
  lastTemp : ℚ
  lastHum : ℚ
  deriving DecidableEq

/-- The default member initialisers of `ProgramState`: the value of the global `st`
when `loop()` first runs. -/
def initialState : ProgramState :=
  { previousRunMillis := 0
    previousFeedMillis := 0
    previousUpdateMillis := 0
    tempUpdated := false
    humidityUpdated := false
    lastTemp := DEFAULT_DATA_VALUE
    lastHum := DEFAULT_DATA_VALUE }

/-- A primitive call on the e-paper panel (`display.xxx(...)`). -/
inductive SurfaceOp where
  | fillScreen (color : Nat)
  | fillRect (x y w h : Int) (color : Nat)
  | setTextWrap (wrap : Bool)
  | setTextColor (color : Nat)
  | setTextSize (size : Nat)
  | setCursor (x y : Int)
  | print (c : Char)
  | display
  deriving DecidableEq

/-- What one `loop()` call does, in program order.  `ioRun`, `tempGet`,
`humidityGet` and `surface` are calls on external collaborators; `updateDisplay`
records a call of the sketch's own `updateDisplay` with the readings stored at
that moment; `firstLoopReturn` marks the early `return` of line 129 and
`displayDue` marks entry into the timed block of line 133. -/
inductive Event where
  | ioRun
  | tempGet
  | humidityGet
  | firstLoopReturn
  | displayDue
  | updateDisplay (lastTemp lastHum : ℚ)
  | surface (op : SurfaceOp)
  deriving DecidableEq

/-- A feed message handed to one of the `onMessage` handlers; `value` is
`data->toFloat()`. -/
inductive Message where
  | temp (value : ℚ)
  | humidity (value : ℚ)
  deriving DecidableEq

/-- The collaborators outside the sketch.  `snprintf t f h` stands for the call
of line 156 with arguments `t`, `f`, `h`: it gives the contents of `buffer`
afterwards (as a map from index to character) and the returned length. -/
structure Platform where
  EPD_WHITE : Nat
  EPD_BLACK : Nat
  width : Int
  height : Int
  snprintf : ℚ → ℚ → ℚ → (Nat → Char) × Int

/-! ## Value ingestion (lines 144-152) -/

/-- Lines 144-147. -/
def updateTemp (st : ProgramState) (value : ℚ) : ProgramState :=
  { st with lastTemp := value, tempUpdated := true }

/-- Lines 149-152. -/
def updateHumidity (st : ProgramState) (value : ℚ) : ProgramState :=
  { st with lastHum := value, humidityUpdated := true }

/-- The handler registered for a message (lines 104-105). -/
def onMessage (st : ProgramState) : Message → ProgramState
  | Message.temp v => updateTemp st v
  | Message.humidity v => updateHumidity st v

/-- The handlers `io.run()` invokes, one per delivered message, in order. -/
def deliver (st : ProgramState) (pending : List Message) : ProgramState :=
  pending.foldl onMessage st

/-! ## Display renderer (lines 154-208) -/

/-- Lines 169-172, the formula over exact arithmetic. -/
def cToF (celcius : ℚ) : ℚ := ((9 / 5) * celcius) + 32

/-- Rounding of an exact value to the nearest integer, ties to even. -/
def roundHalfEven (q : ℚ) : Int :=
  let f := Int.floor q
  if q - f < 1 / 2 then f
  else if 1 / 2 < q - f then f + 1
  else if f % 2 = 0 then f else f + 1

/-- IEEE 754 rounding of a value to the binary format with `prec` significant bits:
to nearest, ties to even.  `Int.log 2 |q|` is the binary exponent of `q`, so the
representable values around `q` are the multiples of `ulp`.  The exponent range is
not bounded: no overflow to infinity and no subnormal values. -/
def roundToBits (prec : Nat) (q : ℚ) : ℚ :=
  if q = 0 then 0
  else
    let ulp : ℚ := (2 : ℚ) ^ (Int.log 2 |q| - ((prec : Int) - 1))
    (roundHalfEven (q / ulp) : ℚ) * ulp

/-- Lines 169-172 with the arithmetic of the C code: `9.0 / 5.0`, the product with
the `float` argument and the sum with 32 are `double` operations (53 significant
bits), and the `double` result is converted to the `float` return type (24 bits). -/
def cToF32 (celcius : ℚ) : ℚ :=
  roundToBits 24 (roundToBits 53 (roundToBits 53 (roundToBits 53 (9 / 5) * celcius) + 32))

/-- Lines 175-184: the four `fillRect` calls, top, right, bottom, left. -/
def drawBorder (p : Platform) (borderWidth : Int) (color : Nat) : List SurfaceOp :=
  [ SurfaceOp.fillRect 0 0 p.width borderWidth color,
    SurfaceOp.fillRect (p.width - borderWidth) borderWidth borderWidth
      (p.height - borderWidth) color,
    SurfaceOp.fillRect 0 (p.height - borderWidth) (p.width - borderWidth) borderWidth color,
    SurfaceOp.fillRect 0 borderWidth borderWidth (p.height - borderWidth) color ]

/-- The `while (idx < len)` loop of lines 194-207; `fuel` bounds the number of
iterations. -/
def scanText (xoff yoff : Int) (text : Nat → Char) (len : Int) :
    Nat → Nat → Int → List SurfaceOp
  | 0, _, _ => []
  | fuel + 1, idx, lineno =>
    if (idx : Int) < len then
      if text idx = Char.ofNat 10 then
        SurfaceOp.setCursor xoff (yoff + 40 * (lineno + 1)) ::
          scanText xoff yoff text len fuel (idx + 1) (lineno + 1)
      else
        SurfaceOp.print (text idx) :: scanText xoff yoff text len fuel (idx + 1) lineno
    else []

/-- Lines 186-208.  The loop runs `len` times, so `len.toNat` is enough fuel. -/
def drawPaddedText (xoff yoff : Int) (text : Nat → Char) (len : Int) (color : Nat) :
    List SurfaceOp :=
  [ SurfaceOp.setTextWrap false, SurfaceOp.setTextColor color, SurfaceOp.setTextSize 5,
    SurfaceOp.setCursor xoff yoff ] ++ scanText xoff yoff text len len.toNat 0 0

/-- Lines 154-167. -/
def updateDisplay (p : Platform) (st : ProgramState) (borderWidth : Int)
    (fillColor drawColor : Nat) : List SurfaceOp :=
  let far := cToF32 st.lastTemp
  let out := p.snprintf st.lastTemp far st.lastHum
  let len := out.2
  if len > 0 then
    [SurfaceOp.fillScreen fillColor] ++ drawBorder p borderWidth drawColor ++
      drawPaddedText (BORDER_WIDTH * 15) (BORDER_WIDTH * 2) out.1 len drawColor ++
      [SurfaceOp.display]
  else []

/-! ## Scheduler (lines 108-142) -/

/-- Lines 112-115: the `io.run()` block.  `pending` are the messages whose handlers
`io.run()` invokes if it is called. -/
def runBlock (st : ProgramState) (currentMillis : Nat) (pending : List Message) :
    ProgramState × List Event :=
  if due currentMillis st.previousRunMillis IO_RUN_INTERVAL then
    ({ deliver st pending with previousRunMillis := currentMillis }, [Event.ioRun])
  else (st, [])

/-- Lines 118-123: the feed request block. -/
def feedBlock (st : ProgramState) (currentMillis : Nat) : ProgramState × List Event :=
  if due currentMillis st.previousFeedMillis FEED_GET_INTERVAL then
    ({ st with previousFeedMillis := currentMillis }, [Event.tempGet, Event.humidityGet])
  else (st, [])

/-- The condition of line 135. -/
def renderWorthy (st : ProgramState) : Bool :=
  (st.lastTemp != DEFAULT_DATA_VALUE || st.lastHum != DEFAULT_DATA_VALUE) &&
    (st.tempUpdated || st.humidityUpdated)

/-- Lines 133-141: the display block. -/
def displayBlock (p : Platform) (st : ProgramState) (currentMillis : Nat) :
    ProgramState × List Event :=
  if due currentMillis st.previousUpdateMillis DISPLAY_UPDATE_INTERVAL then
    if renderWorthy st then
      ({ st with tempUpdated := false, humidityUpdated := false,
                 previousUpdateMillis := currentMillis },
        Event.displayDue :: Event.updateDisplay st.lastTemp st.lastHum ::
          (updateDisplay p st BORDER_WIDTH p.EPD_WHITE p.EPD_BLACK).map Event.surface)
    else
      ({ st with previousUpdateMillis := currentMillis }, [Event.displayDue])
  else (st, [])

/-- Lines 108-142: one call of `loop()` with `millis()` returning `currentMillis`. -/
def loop (p : Platform) (st : ProgramState) (currentMillis : Nat) (pending : List Message) :
    ProgramState × List Event :=
  let r1 := runBlock st currentMillis pending
  let r2 := feedBlock r1.1 currentMillis
  if r2.1.previousUpdateMillis = 0 then
    ({ r2.1 with previousUpdateMillis := currentMillis },
      r1.2 ++ r2.2 ++ [Event.firstLoopReturn])
  else
    let r3 := displayBlock p r2.1 currentMillis
    (r3.1, r1.2 ++ r2.2 ++ r3.2)

/-- The state in which the checks of lines 127 and 133-135 run: after the
`io.run()` and feed blocks of the same `loop()` call. -/
def beforeDisplay (st : ProgramState) (currentMillis : Nat) (pending : List Message) :
    ProgramState :=
  (feedBlock (runBlock st currentMillis pending).1 currentMillis).1

/-- One iteration of the Arduino main loop: the value `millis()` returns and the
messages waiting to be handled by `io.run()`. -/
structure Tick where
  now : Nat
  pending : List Message

/-- Consecutive `loop()` calls: the final state and the events of each call. -/
def runLoops (p : Platform) (st : ProgramState) : List Tick → ProgramState × List (List Event)
  | [] => (st, [])
  | t :: ts =>
    let r := loop p st t.now t.pending
    let rest := runLoops p r.1 ts
    (rest.1, r.2 :: rest.2)

/-- A tick at time `now` during which no handler runs. -/
def quietTick (now : Nat) : Tick := { now := now, pending := [] }

/-- Whether an event is a call on the Render Surface. -/
def Event.isSurface : Event → Bool
  | Event.surface _ => true
  | _ => false

/-- Whether an event is a call of `updateDisplay`. -/
def Event.isUpdateDisplay : Event → Bool
  | Event.updateDisplay _ _ => true
  | _ => false

/-- A state whose changed-flags are both clear. -/
def Clean (st : ProgramState) : Prop :=
  st.tempUpdated = false ∧ st.humidityUpdated = false

/-- The calls of `updateDisplay` among the events of a `loop()` call. -/
def renderCalls (tr : List Event) : List Event := tr.filter Event.isUpdateDisplay

/-- The Render Surface operations among the events of a `loop()` call. -/
def surfaceCalls (tr : List Event) : List Event := tr.filter Event.isSurface

/-- The timed activities of `loop()`: the event that marks a firing and the
interval of lines 24-30 its due-check uses.  The feed block issues both `get()` calls. -/
def activities : List (Event × Nat) :=
  [ (Event.ioRun, IO_RUN_INTERVAL), (Event.tempGet, FEED_GET_INTERVAL),
    (Event.humidityGet, FEED_GET_INTERVAL), (Event.displayDue, DISPLAY_UPDATE_INTERVAL) ]

/-- The timestamp the due-check of an activity reads and its firing overwrites. -/
def lastFiredAt (a : Event) (st : ProgramState) : Nat :=
  match a with
  | Event.ioRun => st.previousRunMillis
  | Event.tempGet => st.previousFeedMillis
  | Event.humidityGet => st.previousFeedMillis
  | _ => st.previousUpdateMillis

/-- The events of the `loop()` call for tick `t`, made after the calls for the
ticks `earlier`, the sketch having started in the initial state. -/
def eventsAt (p : Platform) (earlier : List Tick) (t : Tick) : List Event :=
  (loop p (runLoops p initialState earlier).1 t.now t.pending).2

/-! ## A concrete platform -/

/-- The characters the C library prints for the conversion `%.2f`. -/
def formatF2 (q : ℚ) : List Char :=
  let n := (roundHalfEven (|q| * 100)).toNat
  (if q < 0 then ['-'] else []) ++ Nat.toDigits 10 (n / 100) ++
    ['.', Nat.digitChar (n / 10 % 10), Nat.digitChar (n % 10)]

/-- The characters the format string of line 156 produces. -/
def formatReadings (t f h : ℚ) : List Char :=
  formatF2 t ++ [' ', 'C', Char.ofNat 10] ++ formatF2 f ++ [' ', 'F', Char.ofNat 10] ++
    formatF2 h ++ [' ', '%']

/-- The C library's `snprintf(buffer, sizeof(buffer), ...)` of line 156 with the
32-byte `buffer` of line 53: at most 31 characters are stored, followed by NUL, and
the length of the whole formatted text is returned. -/
def snprintf32 (t f h : ℚ) : (Nat → Char) × Int :=
  let text := formatReadings t f h
  (fun i => if i < 31 then text.getD i (Char.ofNat 0) else Char.ofNat 0, (text.length : Int))

/-- The 2.9 inch grayscale panel of line 41 (296 x 128, lines 37-38) with the
colour codes of the panel library. -/
def thinkInk290 : Platform :=
  { EPD_WHITE := 0
    EPD_BLACK := 1
    width := 296
    height := 128
    snprintf := snprintf32 }

/-- The same panel with a C library whose `snprintf` reports an output error (a
negative return value) and stores nothing. -/
def failingPrintf : Platform :=
  { EPD_WHITE := 0
    EPD_BLACK := 1
    width := 296
    height := 128
    snprintf := fun _ _ _ => (fun _ => Char.ofNat 0, -1) }

/-! ## Reading the Render Surface operations -/

/-- The characters `text[0]`, ..., `text[len - 1]`: what the scan of lines 194-207
reads when it is handed `text` and `len`. -/
def textRead (text : Nat → Char) (len : Int) : List Char :=
  (List.range len.toNat).map text

/-- The scan as the specification words it, over the characters read: a line-break
marker moves the cursor to the next line (horizontal offset reset, vertical offset
one more line height of 40 down), any other character is printed.  `lineno` counts
the line breaks met so far. -/
def scanSpec (xoff yoff : Int) : Int → List Char → List SurfaceOp
  | _, [] => []
  | lineno, c :: cs =>
    if c = Char.ofNat 10 then
      SurfaceOp.setCursor xoff (yoff + 40 * (lineno + 1)) :: scanSpec xoff yoff (lineno + 1) cs
    else SurfaceOp.print c :: scanSpec xoff yoff lineno cs

/-- The decimal numeral with two decimal places for `n` hundredths: a minus sign
when `neg`, the integer part `n / 100` in decimal, the point, and the two digits of
`n % 100`. -/
def twoDecimalNumeral (neg : Bool) (n : Nat) : List Char :=
  (if neg then ['-'] else []) ++ Nat.toDigits 10 (n / 100) ++
    ['.', Nat.digitChar (n / 10 % 10), Nat.digitChar (n % 10)]

/-- What the specification calls `x` with 2 decimal places: the numeral, signed as
`x` is, of a number of hundredths nearest to `|x|`. -/
def IsTwoDecimalPlaces (x : ℚ) (s : List Char) : Prop :=
  ∃ n : Nat, |(|x| * 100 - (n : ℚ))| ≤ 1 / 2 ∧ s = twoDecimalNumeral (decide (x < 0)) n

/-- The character a `print` call is given. -/
def SurfaceOp.printed : SurfaceOp → Option Char
  | SurfaceOp.print c => some c
  | _ => none

/-- The position a `setCursor` call is given. -/
def SurfaceOp.cursor : SurfaceOp → Option (Int × Int)
  | SurfaceOp.setCursor x y => some (x, y)
  | _ => none

/-- The pixels a `fillRect(x, y, w, h, color)` call of the panel library paints: the
block `w` wide and `h` high whose top-left pixel is `(x, y)`. -/
def SurfaceOp.paints : SurfaceOp → Int → Int → Bool
  | SurfaceOp.fillRect x y w h _, px, py =>
    decide (x ≤ px ∧ px < x + w ∧ y ≤ py ∧ py < y + h)
  | _, _, _ => false

/-- Whether a `fillRect` call stays inside the `W` by `H` surface. -/
def SurfaceOp.within (W H : Int) : SurfaceOp → Bool
  | SurfaceOp.fillRect x y w h _ => decide (0 ≤ x ∧ 0 ≤ y ∧ x + w ≤ W ∧ y + h ≤ H)
  | _ => true

/-- The colour a `fillRect` call is given. -/
def SurfaceOp.fillColor : SurfaceOp → Option Nat
  | SurfaceOp.fillRect _ _ _ _ c => some c
  | _ => none

/-- How many of the operations paint the pixel `(px, py)`. -/
def paintCount (ops : List SurfaceOp) (px py : Int) : Nat :=
  (ops.filter (fun o => o.paints px py)).length

/-- The border ring of the `W` by `H` surface for border width `B`: the pixels of
the surface that lie within `B` of one of its edges. -/
def inRing (W H B px py : Int) : Bool :=
  decide (0 ≤ px ∧ px < W ∧ 0 ≤ py ∧ py < H ∧ (px < B ∨ W - B ≤ px ∨ py < B ∨ H - B ≤ py))

/-- The interior `[B, W - B) x [B, H - B)` the border frames. -/
def inInterior (W H B px py : Int) : Bool :=
  decide (B ≤ px ∧ px < W - B ∧ B ≤ py ∧ py < H - B)


/-! ## Auxiliary facts about the blocks of `loop()` -/

theorem deliver_timers (st : ProgramState) (pending : List Message) :
    (deliver st pending).previousRunMillis = st.previousRunMillis ∧
    (deliver st pending).previousFeedMillis = st.previousFeedMillis ∧
    (deliver st pending).previousUpdateMillis = st.previousUpdateMillis := by
  unfold deliver
  induction pending generalizing st with
  | nil => simp
  | cons m ms ih =>
    rw [List.foldl_cons]
    obtain ⟨h1, h2, h3⟩ := ih (onMessage st m)
    cases m <;> simp_all [onMessage, updateTemp, updateHumidity]

theorem runBlock_previousFeedMillis (st : ProgramState) (now : Nat) (pending : List Message) :
    (runBlock st now pending).1.previousFeedMillis = st.previousFeedMillis := by
  unfold runBlock
  split_ifs
  · exact (deliver_timers st pending).2.1
  · rfl

theorem runBlock_previousUpdateMillis (st : ProgramState) (now : Nat) (pending : List Message) :
    (runBlock st now pending).1.previousUpdateMillis = st.previousUpdateMillis := by
  unfold runBlock
  split_ifs
  · exact (deliver_timers st pending).2.2
  · rfl

theorem beforeDisplay_previousUpdateMillis (st : ProgramState) (now : Nat)
    (pending : List Message) :
    (beforeDisplay st now pending).previousUpdateMillis = st.previousUpdateMillis := by
  unfold beforeDisplay feedBlock
  split_ifs <;> exact runBlock_previousUpdateMillis st now pending

/-- With no message delivered, the `io.run()` and feed blocks leave the readings and
the changed-flags alone. -/
theorem beforeDisplay_quiet (st : ProgramState) (now : Nat) :
    (beforeDisplay st now []).tempUpdated = st.tempUpdated ∧
    (beforeDisplay st now []).humidityUpdated = st.humidityUpdated ∧
    (beforeDisplay st now []).lastTemp = st.lastTemp ∧
    (beforeDisplay st now []).lastHum = st.lastHum := by
  unfold beforeDisplay feedBlock runBlock deliver
  split_ifs <;> simp

/-- The events of the `io.run()` and feed blocks are never display events. -/
theorem runBlock_events (st : ProgramState) (now : Nat) (pending : List Message) :
    ∀ e ∈ (runBlock st now pending).2, e = Event.ioRun := by
  unfold runBlock
  split_ifs <;> simp

theorem feedBlock_events (st : ProgramState) (now : Nat) :
    ∀ e ∈ (feedBlock st now).2, e = Event.tempGet ∨ e = Event.humidityGet := by
  unfold feedBlock
  split_ifs <;> simp

/-- The shape of `loop()`: the display part works on `beforeDisplay`. -/
theorem loop_eq (p : Platform) (st : ProgramState) (now : Nat) (pending : List Message) :
    loop p st now pending =
      if st.previousUpdateMillis = 0 then
        ({ beforeDisplay st now pending with previousUpdateMillis := now },
          (runBlock st now pending).2 ++ (feedBlock (runBlock st now pending).1 now).2 ++
            [Event.firstLoopReturn])
      else
        ((displayBlock p (beforeDisplay st now pending) now).1,
          (runBlock st now pending).2 ++ (feedBlock (runBlock st now pending).1 now).2 ++
            (displayBlock p (beforeDisplay st now pending) now).2) := by
  have h := beforeDisplay_previousUpdateMillis st now pending
  unfold beforeDisplay at h
  simp only [loop, beforeDisplay, h]

/-- A quiet `loop()` call on a clean state stays clean and renders nothing. -/
theorem loop_quiet_clean (p : Platform) (st : ProgramState) (now : Nat) (h : Clean st) :
    Clean (loop p st now []).1 ∧
      ∀ e ∈ (loop p st now []).2, e.isUpdateDisplay = false ∧ e.isSurface = false := by
  obtain ⟨q1, q2, -, -⟩ := beforeDisplay_quiet st now
  have hw : renderWorthy (beforeDisplay st now []) = false := by
    simp [renderWorthy, q1, q2, h.1, h.2]
  rw [loop_eq]
  have hr := runBlock_events st now []
  have hf := feedBlock_events (runBlock st now []).1 now
  split_ifs with h0
  · refine ⟨⟨by simp [q1, h.1], by simp [q2, h.2]⟩, ?_⟩
    intro e he
    simp only [List.mem_append, List.mem_singleton] at he
    rcases he with (he | he) | he
    · rw [hr e he]; exact ⟨rfl, rfl⟩
    · rcases hf e he with he | he <;> rw [he] <;> exact ⟨rfl, rfl⟩
    · rw [he]; exact ⟨rfl, rfl⟩
  · have hd : (displayBlock p (beforeDisplay st now []) now).1.tempUpdated = false ∧
        (displayBlock p (beforeDisplay st now []) now).1.humidityUpdated = false ∧
        ∀ e ∈ (displayBlock p (beforeDisplay st now []) now).2, e = Event.displayDue := by
      unfold displayBlock
      simp only [hw, Bool.false_eq_true, ↓reduceIte]
      split_ifs <;> simp [q1, q2, h.1, h.2]
    refine ⟨⟨hd.1, hd.2.1⟩, ?_⟩
    intro e he
    simp only [List.mem_append] at he
    rcases he with (he | he) | he
    · rw [hr e he]; exact ⟨rfl, rfl⟩
    · rcases hf e he with he | he <;> rw [he] <;> exact ⟨rfl, rfl⟩
    · rw [hd.2.2 e he]; exact ⟨rfl, rfl⟩

/-- Quiet `loop()` calls from a clean state never render: among all events of the
run there is no call of `updateDisplay` and no Render Surface operation. -/
theorem runLoops_quiet_clean (p : Platform) (times : List Nat) :
    ∀ st : ProgramState, Clean st →
      renderCalls (runLoops p st (times.map quietTick)).2.flatten = [] ∧
        surfaceCalls (runLoops p st (times.map quietTick)).2.flatten = [] := by
  induction times with
  | nil => intro st _; exact ⟨rfl, rfl⟩
  | cons t ts ih =>
    intro st hst
    obtain ⟨hc, hev⟩ := loop_quiet_clean p st t hst
    obtain ⟨h1, h2⟩ := ih _ hc
    have e1 : renderCalls (loop p st t []).2 = [] := by
      unfold renderCalls
      rw [List.filter_eq_nil_iff]
      intro e he
      simp [(hev e he).1]
    have e2 : surfaceCalls (loop p st t []).2 = [] := by
      unfold surfaceCalls
      rw [List.filter_eq_nil_iff]
      intro e he
      simp [(hev e he).2]
    simp only [renderCalls, surfaceCalls] at h1 h2 e1 e2 ⊢
    simp only [List.map_cons, runLoops, quietTick, List.flatten_cons, List.filter_append]
    rw [e1, e2, h1, h2]
    exact ⟨rfl, rfl⟩

/-! ## The claims -/

/-- C1 (P1, no premature render): from the initial state, whatever the timestamps,
a run of `loop()` calls during which no handler is invoked never calls
`updateDisplay` and never issues a Render Surface operation. -/
theorem C1_no_premature_render (p : Platform) (times : List Nat) :
    renderCalls (runLoops p initialState (times.map quietTick)).2.flatten = [] ∧
      surfaceCalls (runLoops p initialState (times.map quietTick)).2.flatten = [] :=
  runLoops_quiet_clean p times initialState ⟨rfl, rfl⟩

theorem renderCalls_runBlock (st : ProgramState) (now : Nat) (pending : List Message) :
    renderCalls (runBlock st now pending).2 = [] := by
  unfold runBlock renderCalls
  split_ifs <;> rfl

theorem renderCalls_feedBlock (st : ProgramState) (now : Nat) :
    renderCalls (feedBlock st now).2 = [] := by
  unfold feedBlock renderCalls
  split_ifs <;> rfl

theorem renderCalls_surface (ops : List SurfaceOp) :
    renderCalls (ops.map Event.surface) = [] := by
  induction ops with
  | nil => rfl
  | cons o os ih => simp [renderCalls, Event.isUpdateDisplay]

/-- The calls of `updateDisplay` the display block makes. -/
theorem renderCalls_displayBlock (p : Platform) (st : ProgramState) (now : Nat) :
    renderCalls (displayBlock p st now).2 =
      if due now st.previousUpdateMillis DISPLAY_UPDATE_INTERVAL = true ∧
          renderWorthy st = true then
        [Event.updateDisplay st.lastTemp st.lastHum]
      else [] := by
  have hs := renderCalls_surface (updateDisplay p st BORDER_WIDTH p.EPD_WHITE p.EPD_BLACK)
  unfold renderCalls at hs
  unfold displayBlock renderCalls
  by_cases hd : due now st.previousUpdateMillis DISPLAY_UPDATE_INTERVAL = true
  · by_cases hw : renderWorthy st = true
    · simp [hd, hw, List.filter_cons, Event.isUpdateDisplay, hs]
    · simp [hd, hw, List.filter_cons, Event.isUpdateDisplay]
  · simp [hd]

/-- The calls of `updateDisplay` one `loop()` call makes: at most one, made exactly
when the first-loop test fails, the display timer is due and line 135 holds; it
reads the readings stored when the display block runs. -/
theorem renderCalls_loop (p : Platform) (st : ProgramState) (now : Nat)
    (pending : List Message) :
    renderCalls (loop p st now pending).2 =
      if st.previousUpdateMillis ≠ 0 ∧
          due now st.previousUpdateMillis DISPLAY_UPDATE_INTERVAL = true ∧
          renderWorthy (beforeDisplay st now pending) = true then
        [Event.updateDisplay (beforeDisplay st now pending).lastTemp
          (beforeDisplay st now pending).lastHum]
      else [] := by
  have h1 := renderCalls_runBlock st now pending
  have h2 := renderCalls_feedBlock (runBlock st now pending).1 now
  have h3 := renderCalls_displayBlock p (beforeDisplay st now pending) now
  rw [beforeDisplay_previousUpdateMillis] at h3
  unfold renderCalls at h1 h2 h3 ⊢
  rw [loop_eq]
  by_cases h0 : st.previousUpdateMillis = 0
  · simp [h0, List.filter_append, h1, h2, List.filter_cons, Event.isUpdateDisplay]
  · simp only [h0, if_false, List.filter_append, h1, h2, h3, List.nil_append, ne_eq,
      not_false_eq_true, true_and]

/-- A `loop()` call invokes `updateDisplay` exactly when `renderCalls` is not empty. -/
theorem renderCalls_ne_nil (tr : List Event) :
    (∃ e ∈ tr, e.isUpdateDisplay = true) ↔ renderCalls tr ≠ [] := by
  unfold renderCalls
  rw [Ne, List.filter_eq_nil_iff]
  push_neg
  rfl

/-- The changed-flags after a `loop()` call that invoked `updateDisplay`. -/
theorem loop_render_clean (p : Platform) (st : ProgramState) (now : Nat)
    (pending : List Message) (h : renderCalls (loop p st now pending).2 ≠ []) :
    Clean (loop p st now pending).1 := by
  rw [renderCalls_loop] at h
  split_ifs at h with hc
  · obtain ⟨h0, hd, hw⟩ := hc
    rw [← beforeDisplay_previousUpdateMillis st now pending] at hd
    rw [loop_eq, if_neg h0]
    simp [displayBlock, hd, hw, Clean]
  · exact absurd rfl h

theorem renderWorthy_iff (st : ProgramState) :
    renderWorthy st = true ↔
      (st.lastTemp ≠ DEFAULT_DATA_VALUE ∨ st.lastHum ≠ DEFAULT_DATA_VALUE) ∧
        (st.tempUpdated = true ∨ st.humidityUpdated = true) := by
  simp [renderWorthy]

/-- C2 (P4, render gating): a `loop()` call that invokes `updateDisplay` started
with `previousUpdateMillis != 0`, found at least one reading different from
`DEFAULT_DATA_VALUE` and at least one changed-flag set when the check of line 135
ran, and leaves both changed-flags false. -/
theorem C2_render_gating (p : Platform) (st : ProgramState) (now : Nat)
    (pending : List Message)
    (h : ∃ e ∈ (loop p st now pending).2, e.isUpdateDisplay = true) :
    st.previousUpdateMillis ≠ 0 ∧
      ((beforeDisplay st now pending).lastTemp ≠ DEFAULT_DATA_VALUE ∨
        (beforeDisplay st now pending).lastHum ≠ DEFAULT_DATA_VALUE) ∧
      ((beforeDisplay st now pending).tempUpdated = true ∨
        (beforeDisplay st now pending).humidityUpdated = true) ∧
      (loop p st now pending).1.tempUpdated = false ∧
      (loop p st now pending).1.humidityUpdated = false := by
  rw [renderCalls_ne_nil] at h
  have hc := loop_render_clean p st now pending h
  rw [renderCalls_loop] at h
  split_ifs at h with hh
  · obtain ⟨h0, -, hw⟩ := hh
    rw [renderWorthy_iff] at hw
    exact ⟨h0, hw.1, hw.2, hc.1, hc.2⟩
  · exact absurd rfl h

/-- C2 at a concrete call: a temperature of 10 is pending, the pump delivers it and
the due display timer renders it. -/
theorem C2_render_gating_witness :
    (∃ e ∈ (loop thinkInk290 { initialState with previousUpdateMillis := 1000 } 301000
        [Message.temp 10]).2, e.isUpdateDisplay = true) ∧
      (1000 : Nat) ≠ 0 ∧
      ((beforeDisplay { initialState with previousUpdateMillis := 1000 } 301000
          [Message.temp 10]).lastTemp ≠ DEFAULT_DATA_VALUE ∨
        (beforeDisplay { initialState with previousUpdateMillis := 1000 } 301000
          [Message.temp 10]).lastHum ≠ DEFAULT_DATA_VALUE) ∧
      ((beforeDisplay { initialState with previousUpdateMillis := 1000 } 301000
          [Message.temp 10]).tempUpdated = true ∨
        (beforeDisplay { initialState with previousUpdateMillis := 1000 } 301000
          [Message.temp 10]).humidityUpdated = true) ∧
      (loop thinkInk290 { initialState with previousUpdateMillis := 1000 } 301000
        [Message.temp 10]).1.tempUpdated = false ∧
      (loop thinkInk290 { initialState with previousUpdateMillis := 1000 } 301000
        [Message.temp 10]).1.humidityUpdated = false :=
  have h : ∃ e ∈ (loop thinkInk290 { initialState with previousUpdateMillis := 1000 } 301000
      [Message.temp 10]).2, e.isUpdateDisplay = true :=
    ⟨Event.updateDisplay 10 DEFAULT_DATA_VALUE, by decide, rfl⟩
  ⟨h, C2_render_gating thinkInk290 _ 301000 [Message.temp 10] h⟩

/-- What each timed block of one `loop()` call does, read off the events and the
three timestamps of the state. -/
theorem loop_timers (p : Platform) (st : ProgramState) (now : Nat) (pending : List Message) :
    (Event.ioRun ∈ (loop p st now pending).2 ↔
        due now st.previousRunMillis IO_RUN_INTERVAL = true) ∧
      (Event.tempGet ∈ (loop p st now pending).2 ↔
        due now st.previousFeedMillis FEED_GET_INTERVAL = true) ∧
      (Event.humidityGet ∈ (loop p st now pending).2 ↔
        due now st.previousFeedMillis FEED_GET_INTERVAL = true) ∧
      (Event.firstLoopReturn ∈ (loop p st now pending).2 ↔ st.previousUpdateMillis = 0) ∧
      (Event.displayDue ∈ (loop p st now pending).2 ↔
        (st.previousUpdateMillis ≠ 0 ∧
          due now st.previousUpdateMillis DISPLAY_UPDATE_INTERVAL = true)) ∧
      (loop p st now pending).1.previousRunMillis =
        (if due now st.previousRunMillis IO_RUN_INTERVAL = true then now
          else st.previousRunMillis) ∧
      (loop p st now pending).1.previousFeedMillis =
        (if due now st.previousFeedMillis FEED_GET_INTERVAL = true then now
          else st.previousFeedMillis) ∧
      (loop p st now pending).1.previousUpdateMillis =
        (if st.previousUpdateMillis = 0 ∨
            due now st.previousUpdateMillis DISPLAY_UPDATE_INTERVAL = true then now
          else st.previousUpdateMillis) := by
  obtain ⟨d1, d2, d3⟩ := deliver_timers st pending
  by_cases hr : due now st.previousRunMillis IO_RUN_INTERVAL = true <;>
  by_cases hf : due now st.previousFeedMillis FEED_GET_INTERVAL = true <;>
  by_cases h0 : st.previousUpdateMillis = 0 <;>
  by_cases hd : due now st.previousUpdateMillis DISPLAY_UPDATE_INTERVAL = true <;>
  by_cases hw : renderWorthy (beforeDisplay st now pending) = true <;>
  simp [loop, runBlock, feedBlock, displayBlock, beforeDisplay, hr, hf, h0, hd, d1, d2, d3]
    at hw ⊢ <;>
  simp [hw, h0, hd]

/-- C3, as stated, fails at the sentinel: after `updateTemp(-50.0)` and
`updateHumidity(-50.0)` in a state with `previousUpdateMillis != 0`, a `loop()` call
on which the display timer is due makes no call of `updateDisplay` and leaves both
changed-flags set. -/
theorem C3_sentinel_counterexample :
    (updateHumidity (updateTemp { initialState with previousUpdateMillis := 1000 } (-50))
        (-50)).previousUpdateMillis ≠ 0 ∧
      due 301000 (updateHumidity (updateTemp { initialState with previousUpdateMillis := 1000 }
        (-50)) (-50)).previousUpdateMillis DISPLAY_UPDATE_INTERVAL = true ∧
      (renderCalls (loop thinkInk290 (updateHumidity (updateTemp
        { initialState with previousUpdateMillis := 1000 } (-50)) (-50)) 301000 []).2).length
          = 0 ∧
      (loop thinkInk290 (updateHumidity (updateTemp
        { initialState with previousUpdateMillis := 1000 } (-50)) (-50)) 301000
          []).1.tempUpdated = true ∧
      (loop thinkInk290 (updateHumidity (updateTemp
        { initialState with previousUpdateMillis := 1000 } (-50)) (-50)) 301000
          []).1.humidityUpdated = true := by
  decide

/-- C3 (scenario, first half), amended: in a state with `previousUpdateMillis != 0`
in which `updateTemp(t)` then `updateHumidity(h)` have been called, with `t` or `h`
different from `DEFAULT_DATA_VALUE`, a `loop()` call on which the display timer is
due and during which no further handler runs calls `updateDisplay` exactly once,
that call reads `lastTemp = t` and `lastHum = h`, and afterwards both changed-flags
are false. -/
theorem C3_scenario_render (p : Platform) (st : ProgramState) (t h : ℚ) (now : Nat)
    (hfirst : st.previousUpdateMillis ≠ 0)
    (hdue : due now st.previousUpdateMillis DISPLAY_UPDATE_INTERVAL = true)
    (hval : t ≠ DEFAULT_DATA_VALUE ∨ h ≠ DEFAULT_DATA_VALUE) :
    renderCalls (loop p (updateHumidity (updateTemp st t) h) now []).2 =
        [Event.updateDisplay t h] ∧
      (loop p (updateHumidity (updateTemp st t) h) now []).1.tempUpdated = false ∧
      (loop p (updateHumidity (updateTemp st t) h) now []).1.humidityUpdated = false := by
  obtain ⟨q1, q2, q3, q4⟩ := beforeDisplay_quiet (updateHumidity (updateTemp st t) h) now
  have hw : renderWorthy (beforeDisplay (updateHumidity (updateTemp st t) h) now []) = true := by
    rw [renderWorthy_iff, q1, q2, q3, q4]
    exact ⟨hval, Or.inl rfl⟩
  have hp : (updateHumidity (updateTemp st t) h).previousUpdateMillis =
      st.previousUpdateMillis := rfl
  have hr : renderCalls (loop p (updateHumidity (updateTemp st t) h) now []).2 =
      [Event.updateDisplay t h] := by
    rw [renderCalls_loop, hp, if_pos ⟨hfirst, hdue, hw⟩, q3, q4]
    rfl
  have hc := loop_render_clean p (updateHumidity (updateTemp st t) h) now []
    (by rw [hr]; exact List.cons_ne_nil _ _)
  exact ⟨hr, hc.1, hc.2⟩

/-- C3 at the readings of the scenario: `t = 10.0`, `h = 80.0`, display timer last
fired at 1000, `loop()` called at 301000. -/
theorem C3_scenario_render_witness :
    ({ initialState with previousUpdateMillis := 1000 } : ProgramState).previousUpdateMillis ≠ 0 ∧
      due 301000 ({ initialState with previousUpdateMillis := 1000 } :
        ProgramState).previousUpdateMillis DISPLAY_UPDATE_INTERVAL = true ∧
      ((10 : ℚ) ≠ DEFAULT_DATA_VALUE ∨ (80 : ℚ) ≠ DEFAULT_DATA_VALUE) ∧
      renderCalls (loop thinkInk290 (updateHumidity (updateTemp
        { initialState with previousUpdateMillis := 1000 } 10) 80) 301000 []).2 =
          [Event.updateDisplay 10 80] ∧
      (loop thinkInk290 (updateHumidity (updateTemp
        { initialState with previousUpdateMillis := 1000 } 10) 80) 301000
          []).1.tempUpdated = false ∧
      (loop thinkInk290 (updateHumidity (updateTemp
        { initialState with previousUpdateMillis := 1000 } 10) 80) 301000
          []).1.humidityUpdated = false :=
  ⟨by decide, by decide, Or.inl (by decide),
    C3_scenario_render thinkInk290 { initialState with previousUpdateMillis := 1000 } 10 80
      301000 (by decide) (by decide) (Or.inl (by decide))⟩

/-- C4 (no redundant display write): after a `loop()` call that invoked
`updateDisplay`, any further run of `loop()` calls during which no handler runs,
whatever the timestamps, issues no Render Surface operation and does not call
`updateDisplay`. -/
theorem C4_no_redundant_write (p : Platform) (st : ProgramState) (now : Nat)
    (pending : List Message) (times : List Nat)
    (h : ∃ e ∈ (loop p st now pending).2, e.isUpdateDisplay = true) :
    surfaceCalls (runLoops p (loop p st now pending).1 (times.map quietTick)).2.flatten = [] ∧
      renderCalls (runLoops p (loop p st now pending).1 (times.map quietTick)).2.flatten = [] :=
  have hq := runLoops_quiet_clean p times _
    (loop_render_clean p st now pending ((renderCalls_ne_nil _).1 h))
  ⟨hq.2, hq.1⟩

/-- C4 at a concrete run: a render at 301000 followed by quiet calls at 601000,
901000 and 1201000, each of them display-due. -/
theorem C4_no_redundant_write_witness :
    (∃ e ∈ (loop thinkInk290 (updateTemp { initialState with previousUpdateMillis := 1000 } 21)
        301000 []).2, e.isUpdateDisplay = true) ∧
      surfaceCalls (runLoops thinkInk290
        (loop thinkInk290 (updateTemp { initialState with previousUpdateMillis := 1000 } 21)
          301000 []).1 ([601000, 901000, 1201000].map quietTick)).2.flatten = [] ∧
      renderCalls (runLoops thinkInk290
        (loop thinkInk290 (updateTemp { initialState with previousUpdateMillis := 1000 } 21)
          301000 []).1 ([601000, 901000, 1201000].map quietTick)).2.flatten = [] :=
  have h : ∃ e ∈ (loop thinkInk290
      (updateTemp { initialState with previousUpdateMillis := 1000 } 21) 301000 []).2,
      e.isUpdateDisplay = true :=
    ⟨Event.updateDisplay 21 DEFAULT_DATA_VALUE, by decide, rfl⟩
  ⟨h, C4_no_redundant_write thinkInk290 _ 301000 [] [601000, 901000, 1201000] h⟩

/-- C5, as stated, fails: the first `loop()` call at `millis() = 60000` invokes
`io.run()` and both feeds' `get()` before the early return, and advances
`previousRunMillis` and `previousFeedMillis`. -/
theorem C5_first_call_counterexample :
    initialState.previousUpdateMillis = 0 ∧
      (loop thinkInk290 initialState 60000 []).2 =
        [Event.ioRun, Event.tempGet, Event.humidityGet, Event.firstLoopReturn] ∧
      (loop thinkInk290 initialState 60000 []).1.previousRunMillis = 60000 ∧
      initialState.previousRunMillis = 0 ∧
      (loop thinkInk290 initialState 60000 []).1.previousFeedMillis = 60000 ∧
      initialState.previousFeedMillis = 0 := by
  decide

/-- C5 (first-call short-circuit), amended: a `loop()` call that starts with
`previousUpdateMillis == 0` records `now` in `previousUpdateMillis`, takes the early
return, does not enter the display block, does not call `updateDisplay` and issues
no Render Surface operation; the `io.run()` and feed due-checks run before the
early return as on any other call. -/
theorem C5_first_call (p : Platform) (st : ProgramState) (now : Nat) (pending : List Message)
    (h : st.previousUpdateMillis = 0) :
    (loop p st now pending).1.previousUpdateMillis = now ∧
      Event.firstLoopReturn ∈ (loop p st now pending).2 ∧
      Event.displayDue ∉ (loop p st now pending).2 ∧
      renderCalls (loop p st now pending).2 = [] ∧
      surfaceCalls (loop p st now pending).2 = [] ∧
      (Event.ioRun ∈ (loop p st now pending).2 ↔
        due now st.previousRunMillis IO_RUN_INTERVAL = true) ∧
      (Event.tempGet ∈ (loop p st now pending).2 ↔
        due now st.previousFeedMillis FEED_GET_INTERVAL = true) ∧
      (Event.humidityGet ∈ (loop p st now pending).2 ↔
        due now st.previousFeedMillis FEED_GET_INTERVAL = true) ∧
      (loop p st now pending).1.previousRunMillis =
        (if due now st.previousRunMillis IO_RUN_INTERVAL = true then now
          else st.previousRunMillis) ∧
      (loop p st now pending).1.previousFeedMillis =
        (if due now st.previousFeedMillis FEED_GET_INTERVAL = true then now
          else st.previousFeedMillis) := by
  obtain ⟨t1, t2, t3, t4, t5, t6, t7, t8⟩ := loop_timers p st now pending
  refine ⟨?_, t4.2 h, ?_, ?_, ?_, t1, t2, t3, t6, t7⟩
  · rw [t8, if_pos (Or.inl h)]
  · intro hc
    exact (t5.1 hc).1 h
  · rw [renderCalls_loop, if_neg]
    intro hc
    exact hc.1 h
  · unfold surfaceCalls
    rw [List.filter_eq_nil_iff]
    intro e he
    rw [loop_eq, if_pos h] at he
    simp only [List.mem_append, List.mem_singleton] at he
    rcases he with (he | he) | he
    · rw [runBlock_events _ _ _ e he]; simp [Event.isSurface]
    · rcases feedBlock_events _ _ e he with he | he <;> rw [he] <;> simp [Event.isSurface]
    · rw [he]; simp [Event.isSurface]

/-- C5 at the first call of the sketch, `millis() = 1234`. -/
theorem C5_first_call_witness :
    initialState.previousUpdateMillis = 0 ∧
      ((loop thinkInk290 initialState 1234 []).1.previousUpdateMillis = 1234 ∧
        Event.firstLoopReturn ∈ (loop thinkInk290 initialState 1234 []).2 ∧
        Event.displayDue ∉ (loop thinkInk290 initialState 1234 []).2 ∧
        renderCalls (loop thinkInk290 initialState 1234 []).2 = [] ∧
        surfaceCalls (loop thinkInk290 initialState 1234 []).2 = [] ∧
        (Event.ioRun ∈ (loop thinkInk290 initialState 1234 []).2 ↔
          due 1234 initialState.previousRunMillis IO_RUN_INTERVAL = true) ∧
        (Event.tempGet ∈ (loop thinkInk290 initialState 1234 []).2 ↔
          due 1234 initialState.previousFeedMillis FEED_GET_INTERVAL = true) ∧
        (Event.humidityGet ∈ (loop thinkInk290 initialState 1234 []).2 ↔
          due 1234 initialState.previousFeedMillis FEED_GET_INTERVAL = true) ∧
        (loop thinkInk290 initialState 1234 []).1.previousRunMillis =
          (if due 1234 initialState.previousRunMillis IO_RUN_INTERVAL = true then 1234
            else initialState.previousRunMillis) ∧
        (loop thinkInk290 initialState 1234 []).1.previousFeedMillis =
          (if due 1234 initialState.previousFeedMillis FEED_GET_INTERVAL = true then 1234
            else initialState.previousFeedMillis)) :=
  ⟨rfl, C5_first_call thinkInk290 initialState 1234 [] rfl⟩

/-- C6: the early return is taken again after the first call.  From the initial
state, with `millis()` returning 1000, 4294667296, 0 (the counter has wrapped) and
1, the display timer is due on the second and third calls, the third stores
`previousUpdateMillis = 0`, and the fourth call takes the early return of line 129
once more.  A first call at `millis() = 0` leaves `previousUpdateMillis = 0` as
well. -/
theorem C6_early_return_repeats :
    (runLoops thinkInk290 initialState
        [quietTick 1000, quietTick 4294667296, quietTick 0, quietTick 1]).2 =
        [[Event.firstLoopReturn],
          [Event.ioRun, Event.tempGet, Event.humidityGet, Event.displayDue],
          [Event.ioRun, Event.tempGet, Event.humidityGet, Event.displayDue],
          [Event.firstLoopReturn]] ∧
      (runLoops thinkInk290 initialState
        [quietTick 1000, quietTick 4294667296, quietTick 0]).1.previousUpdateMillis = 0 ∧
      (loop thinkInk290 initialState 0 []).1.previousUpdateMillis = 0 := by
  decide

/-! ### Timer arithmetic -/

/-- Unsigned subtraction of two wrapped timestamps gives the true elapsed time as
long as that is below `2 ^ w`. -/
theorem usub_wrapped (w T0 T1 : Nat) (h01 : T0 ≤ T1) (hlt : T1 - T0 < 2 ^ w) :
    usub w (T1 % 2 ^ w) (T0 % 2 ^ w) = T1 - T0 := by
  unfold usub
  rw [Nat.mod_mod, Nat.mod_mod]
  have hb : T0 % 2 ^ w < 2 ^ w := Nat.mod_lt _ (Nat.two_pow_pos w)
  rw [Nat.add_comm]
  have key : (T1 % 2 ^ w + (2 ^ w - T0 % 2 ^ w)) ≡ T1 - T0 [MOD 2 ^ w] := by
    apply Nat.ModEq.add_right_cancel' T0
    have e1 : T1 - T0 + T0 = T1 := Nat.sub_add_cancel h01
    rw [e1]
    have h1 : T1 % 2 ^ w ≡ T1 [MOD 2 ^ w] := Nat.mod_modEq _ _
    have h2 : T0 ≡ T0 % 2 ^ w [MOD 2 ^ w] := (Nat.mod_modEq _ _).symm
    have h3 := (h1.add_right (2 ^ w - T0 % 2 ^ w)).add h2
    have e2 : T1 + (2 ^ w - T0 % 2 ^ w) + T0 % 2 ^ w = T1 + 2 ^ w := by omega
    rw [e2] at h3
    exact h3.trans (by simp [Nat.ModEq])
  rw [Nat.ModEq] at key
  rw [key, Nat.mod_eq_of_lt hlt]

/-- The due-check between an earlier and a later `unsigned long` timestamp. -/
theorem due_iff_of_le (now last interval : Nat) (hle : last ≤ now)
    (hnow : now < 2 ^ ULONG_BITS) :
    due now last interval = true ↔ last + interval ≤ now := by
  have h := usub_wrapped ULONG_BITS last now hle (by omega)
  rw [Nat.mod_eq_of_lt hnow, Nat.mod_eq_of_lt (by omega)] at h
  unfold due
  rw [decide_eq_true_iff, h]
  omega

/-- One `loop()` call seen from a single activity whose timestamp is not zero. -/
theorem loop_activity (p : Platform) (st : ProgramState) (now : Nat) (pending : List Message)
    (a : Event) (I : Nat) (ha : (a, I) ∈ activities) (h0 : lastFiredAt a st ≠ 0) :
    (a ∈ (loop p st now pending).2 ↔ due now (lastFiredAt a st) I = true) ∧
      lastFiredAt a (loop p st now pending).1 =
        (if due now (lastFiredAt a st) I = true then now else lastFiredAt a st) := by
  obtain ⟨t1, t2, t3, -, t5, t6, t7, t8⟩ := loop_timers p st now pending
  simp only [activities, List.mem_cons, Prod.mk.injEq, List.mem_singleton, List.not_mem_nil,
    or_false] at ha
  rcases ha with ⟨rfl, rfl⟩ | ⟨rfl, rfl⟩ | ⟨rfl, rfl⟩ | ⟨rfl, rfl⟩
  · exact ⟨t1, t6⟩
  · exact ⟨t2, t7⟩
  · exact ⟨t3, t7⟩
  · simp only [lastFiredAt] at h0 ⊢
    refine ⟨by rw [t5]; simp [h0], ?_⟩
    rw [t8]
    simp [h0]

/-- An activity that fires stores `now` in its timestamp. -/
theorem loop_activity_fired (p : Platform) (st : ProgramState) (now : Nat)
    (pending : List Message) (a : Event) (I : Nat) (ha : (a, I) ∈ activities)
    (hf : a ∈ (loop p st now pending).2) :
    lastFiredAt a (loop p st now pending).1 = now := by
  obtain ⟨t1, t2, t3, -, t5, t6, t7, t8⟩ := loop_timers p st now pending
  simp only [activities, List.mem_cons, Prod.mk.injEq, List.mem_singleton, List.not_mem_nil,
    or_false] at ha
  rcases ha with ⟨rfl, rfl⟩ | ⟨rfl, rfl⟩ | ⟨rfl, rfl⟩ | ⟨rfl, rfl⟩
  · simp only [lastFiredAt]; rw [t6, if_pos (t1.1 hf)]
  · simp only [lastFiredAt]; rw [t7, if_pos (t2.1 hf)]
  · simp only [lastFiredAt]; rw [t7, if_pos (t3.1 hf)]
  · simp only [lastFiredAt]; rw [t8, if_pos (Or.inr (t5.1 hf).2)]

/-- No activity fires on a call at `millis() = 0` made in the initial state. -/
theorem initial_zero_silent (p : Platform) (pending : List Message) (a : Event) (I : Nat)
    (ha : (a, I) ∈ activities) : a ∉ (loop p initialState 0 pending).2 := by
  obtain ⟨t1, t2, t3, -, t5, -⟩ := loop_timers p initialState 0 pending
  simp only [activities, List.mem_cons, Prod.mk.injEq, List.mem_singleton, List.not_mem_nil,
    or_false] at ha
  rcases ha with ⟨rfl, rfl⟩ | ⟨rfl, rfl⟩ | ⟨rfl, rfl⟩ | ⟨rfl, rfl⟩
  · rw [t1]; decide
  · rw [t2]; decide
  · rw [t3]; decide
  · rw [t5]; decide

theorem runLoops_append (p : Platform) (xs ys : List Tick) :
    ∀ st : ProgramState,
      (runLoops p st (xs ++ ys)).1 = (runLoops p (runLoops p st xs).1 ys).1 := by
  induction xs with
  | nil => intro st; rfl
  | cons x xs ih => intro st; simp only [List.cons_append, runLoops]; exact ih _

/-- While every call comes after the last firing and before the interval has
elapsed, the activity's timestamp stays where the firing left it. -/
theorem runLoops_holds (p : Platform) (a : Event) (I L : Nat) (ha : (a, I) ∈ activities)
    (hL : L ≠ 0) (mid : List Tick) :
    ∀ st : ProgramState, lastFiredAt a st = L →
      (∀ m ∈ mid, L ≤ m.now ∧ m.now < L + I ∧ m.now < 2 ^ ULONG_BITS) →
      lastFiredAt a (runLoops p st mid).1 = L := by
  induction mid with
  | nil => intro st hst _; exact hst
  | cons m ms ih =>
    intro st hst hm
    obtain ⟨h1, h2, h3⟩ := hm m (List.mem_cons_self _ _)
    have hstep := (loop_activity p st m.now m.pending a I ha (by rw [hst]; exact hL)).2
    have hnd : ¬ due m.now L I = true := by
      rw [due_iff_of_le m.now L I h1 h3]; omega
    rw [hst, if_neg hnd] at hstep
    simp only [runLoops]
    exact ih _ hstep (fun x hx => hm x (List.mem_cons_of_mem _ hx))

/-- The state in which the call for `tj` is made, when `tk` and `mid` come before. -/
theorem runLoops_split (p : Platform) (pre mid : List Tick) (tk : Tick) :
    (runLoops p initialState (pre ++ tk :: mid)).1 =
      (runLoops p (loop p (runLoops p initialState pre).1 tk.now tk.pending).1 mid).1 := by
  rw [runLoops_append]
  rfl

/-- C7 (P2, drift-free scheduling): take the `loop()` calls of the sketch from the
initial state at strictly increasing `millis()` values, and an activity (the
`io.run()` pump, a feed `get()`, the timed display block) with its interval `I`.
If the activity fires on the call at `tk`, it fires on no later call `tj` with
`tj < tk + I`, and it fires on the first later call with `tk + I <= tj`, whatever
calls came in between. -/
theorem C7_drift_free (p : Platform) (pre mid : List Tick) (tk tj : Tick) (a : Event)
    (I : Nat) (ha : (a, I) ∈ activities)
    (hsorted : List.Pairwise (· < ·) ((pre ++ tk :: (mid ++ [tj])).map Tick.now))
    (hbound : ∀ t ∈ pre ++ tk :: (mid ++ [tj]), t.now < 2 ^ ULONG_BITS)
    (hfire : a ∈ eventsAt p pre tk) :
    (tj.now < tk.now + I → a ∉ eventsAt p (pre ++ tk :: mid) tj) ∧
      ((∀ m ∈ mid, m.now < tk.now + I) → tk.now + I ≤ tj.now →
        a ∈ eventsAt p (pre ++ tk :: mid) tj) := by
  simp only [List.map_append, List.map_cons, List.map_nil, List.pairwise_append,
    List.pairwise_cons, List.mem_append, List.mem_cons, List.mem_map, List.mem_singleton,
    List.not_mem_nil, List.Pairwise.nil, or_false, false_implies, implies_true, and_true,
    true_and] at hsorted
  obtain ⟨-, ⟨hk, -, hmj⟩, hpre⟩ := hsorted
  have hkj : tk.now < tj.now := hk tj.now (Or.inr rfl)
  have hkm : ∀ m ∈ mid, tk.now < m.now := fun m hm => hk m.now (Or.inl ⟨m, hm, rfl⟩)
  have hmj2 : ∀ m ∈ mid, m.now < tj.now := fun m hm =>
    hmj m.now ⟨m, hm, rfl⟩ tj.now rfl
  have hbj : tj.now < 2 ^ ULONG_BITS :=
    hbound tj (List.mem_append_right _ (List.mem_cons_of_mem _ (List.mem_append_right _
      (List.mem_singleton_self _))))
  have hbm : ∀ m ∈ mid, m.now < 2 ^ ULONG_BITS := fun m hm =>
    hbound m (List.mem_append_right _ (List.mem_cons_of_mem _ (List.mem_append_left _ hm)))
  -- the firing call was not made at `millis() = 0`
  have hk0 : tk.now ≠ 0 := by
    intro hz
    cases pre with
    | nil =>
      have hf := hfire
      unfold eventsAt at hf
      simp only [runLoops] at hf
      rw [hz] at hf
      exact initial_zero_silent p tk.pending a I ha hf
    | cons x xs =>
      have := hpre x.now ⟨x, List.mem_cons_self _ _, rfl⟩ tk.now (Or.inl rfl)
      omega
  have hfired : lastFiredAt a (loop p (runLoops p initialState pre).1 tk.now tk.pending).1 =
      tk.now := loop_activity_fired p _ tk.now tk.pending a I ha hfire
  -- the timestamp seen by the call at `tj`
  have hstate : (∀ m ∈ mid, m.now < tk.now + I) →
      lastFiredAt a (runLoops p initialState (pre ++ tk :: mid)).1 = tk.now := by
    intro hm
    rw [runLoops_split]
    exact runLoops_holds p a I tk.now ha hk0 mid _ hfired
      (fun m hmem => ⟨Nat.le_of_lt (hkm m hmem), hm m hmem, hbm m hmem⟩)
  have hiff : (∀ m ∈ mid, m.now < tk.now + I) →
      (a ∈ eventsAt p (pre ++ tk :: mid) tj ↔ tk.now + I ≤ tj.now) := by
    intro hm
    have hs := hstate hm
    unfold eventsAt
    rw [(loop_activity p _ tj.now tj.pending a I ha (by rw [hs]; exact hk0)).1, hs]
    exact due_iff_of_le tj.now tk.now I (Nat.le_of_lt hkj) hbj
  constructor
  · intro hlt hmem
    have hm : ∀ m ∈ mid, m.now < tk.now + I := fun m hmm =>
      Nat.lt_trans (hmj2 m hmm) hlt
    have := (hiff hm).1 hmem
    omega
  · intro hm hge
    exact (hiff hm).2 hge

/-- C7 for the pump: from the initial state `io.run()` fires on the call at 5000,
does not fire on the calls at 7000 and 9999, and fires again on the call at 10000,
the first one not before 5000 + `IO_RUN_INTERVAL`. -/
theorem C7_drift_free_witness :
    (Event.ioRun, IO_RUN_INTERVAL) ∈ activities ∧
      List.Pairwise (· < ·) (([quietTick 1000] ++ quietTick 5000 ::
        ([quietTick 7000, quietTick 9999] ++ [quietTick 10000])).map Tick.now) ∧
      (∀ t ∈ [quietTick 1000] ++ quietTick 5000 ::
        ([quietTick 7000, quietTick 9999] ++ [quietTick 10000]), t.now < 2 ^ ULONG_BITS) ∧
      Event.ioRun ∈ eventsAt thinkInk290 [quietTick 1000] (quietTick 5000) ∧
      Event.ioRun ∈ eventsAt thinkInk290
        ([quietTick 1000] ++ quietTick 5000 :: [quietTick 7000, quietTick 9999])
        (quietTick 10000) ∧
      Event.ioRun ∉ eventsAt thinkInk290
        ([quietTick 1000] ++ quietTick 5000 :: [quietTick 7000]) (quietTick 9999) :=
  ⟨by decide, by decide, by decide, by decide,
    (C7_drift_free thinkInk290 [quietTick 1000] [quietTick 7000, quietTick 9999]
      (quietTick 5000) (quietTick 10000) Event.ioRun IO_RUN_INTERVAL (by decide) (by decide)
      (by decide) (by decide)).2 (by decide) (by decide),
    (C7_drift_free thinkInk290 [quietTick 1000] [quietTick 7000]
      (quietTick 5000) (quietTick 9999) Event.ioRun IO_RUN_INTERVAL (by decide) (by decide)
      (by decide) (by decide)).1 (by decide)⟩

/-- C8 (wraparound-safe due-check): every due-check of `loop()` compares
`(now - lastFiredAt) mod 2^w` with the interval, `w` being the width of
`unsigned long`, and a firing stores `now`; and for true times `T0 <= T1` less than
`2^w` apart, the comparison made on the wrapped values holds exactly when
`T1 - T0 >= interval`, also when the counter wrapped in between. -/
theorem C8_wraparound_safe (p : Platform) (st : ProgramState) (now : Nat)
    (pending : List Message) (w T0 T1 interval : Nat) (h01 : T0 ≤ T1)
    (hlt : T1 - T0 < 2 ^ w) :
    ((Event.ioRun ∈ (loop p st now pending).2 ↔
          IO_RUN_INTERVAL ≤ usub ULONG_BITS now st.previousRunMillis) ∧
        (Event.ioRun ∈ (loop p st now pending).2 →
          (loop p st now pending).1.previousRunMillis = now)) ∧
      ((Event.tempGet ∈ (loop p st now pending).2 ↔
          FEED_GET_INTERVAL ≤ usub ULONG_BITS now st.previousFeedMillis) ∧
        (Event.humidityGet ∈ (loop p st now pending).2 ↔
          FEED_GET_INTERVAL ≤ usub ULONG_BITS now st.previousFeedMillis) ∧
        (Event.tempGet ∈ (loop p st now pending).2 →
          (loop p st now pending).1.previousFeedMillis = now)) ∧
      ((Event.displayDue ∈ (loop p st now pending).2 ↔
          (st.previousUpdateMillis ≠ 0 ∧
            DISPLAY_UPDATE_INTERVAL ≤ usub ULONG_BITS now st.previousUpdateMillis)) ∧
        (Event.displayDue ∈ (loop p st now pending).2 →
          (loop p st now pending).1.previousUpdateMillis = now)) ∧
      (interval ≤ usub w (T1 % 2 ^ w) (T0 % 2 ^ w) ↔ interval ≤ T1 - T0) ∧
      (w = ULONG_BITS →
        (due (T1 % 2 ^ w) (T0 % 2 ^ w) interval = true ↔ interval ≤ T1 - T0)) := by
  obtain ⟨t1, t2, t3, -, t5, t6, t7, t8⟩ := loop_timers p st now pending
  have hd : ∀ a b c : Nat, due a b c = true ↔ c ≤ usub ULONG_BITS a b := fun a b c => by
    unfold due
    exact decide_eq_true_iff
  refine ⟨⟨?_, ?_⟩, ⟨?_, ?_, ?_⟩, ⟨?_, ?_⟩, ?_, ?_⟩
  · rw [t1, hd]
  · intro h; rw [t6, if_pos (t1.1 h)]
  · rw [t2, hd]
  · rw [t3, hd]
  · intro h; rw [t7, if_pos (t2.1 h)]
  · rw [t5, hd]
  · intro h; rw [t8, if_pos (Or.inr (t5.1 h).2)]
  · rw [usub_wrapped w T0 T1 h01 hlt]
  · intro hw
    subst hw
    rw [hd, usub_wrapped ULONG_BITS T0 T1 h01 hlt]

/-- C8 across a wrap: the pump last fired 1000 ms before the counter wrapped and
`loop()` runs 4000 ms after it; the 5000 ms that really elapsed are seen. -/
theorem C8_wraparound_safe_witness :
    (4294966296 : Nat) ≤ 4294971296 ∧ 4294971296 - 4294966296 < 2 ^ 32 ∧
      (IO_RUN_INTERVAL ≤ usub 32 (4294971296 % 2 ^ 32) (4294966296 % 2 ^ 32) ↔
        IO_RUN_INTERVAL ≤ 4294971296 - 4294966296) ∧
      (Event.ioRun ∈ (loop thinkInk290
          { initialState with previousRunMillis := 4294966296, previousUpdateMillis := 7 }
          4000 []).2 ↔
        IO_RUN_INTERVAL ≤ usub ULONG_BITS 4000 4294966296) :=
  ⟨by decide, by decide,
    (C8_wraparound_safe thinkInk290
      { initialState with previousRunMillis := 4294966296, previousUpdateMillis := 7 }
      4000 [] 32 4294966296 4294971296 IO_RUN_INTERVAL (by decide) (by decide)).2.2.2.1,
    (C8_wraparound_safe thinkInk290
      { initialState with previousRunMillis := 4294966296, previousUpdateMillis := 7 }
      4000 [] 32 4294966296 4294971296 IO_RUN_INTERVAL (by decide) (by decide)).1.1⟩

/-- No Render Surface event equals one of the scheduler events. -/
theorem count_surface (a : Event) (ha : a.isSurface = false) (ops : List SurfaceOp) :
    (ops.map Event.surface).count a = 0 := by
  rw [List.count_eq_zero]
  intro hmem
  obtain ⟨o, -, ho⟩ := List.mem_map.1 hmem
  rw [← ho] at ha
  exact absurd ha (by simp [Event.isSurface])

/-- C9 (P3, at most one fire per call per activity): whatever the state and the
timestamp, one `loop()` call invokes `io.run()` at most once, each feed's `get()`
at most once and `updateDisplay` at most once. -/
theorem C9_at_most_once (p : Platform) (st : ProgramState) (now : Nat)
    (pending : List Message) :
    (loop p st now pending).2.count Event.ioRun ≤ 1 ∧
      (loop p st now pending).2.count Event.tempGet ≤ 1 ∧
      (loop p st now pending).2.count Event.humidityGet ≤ 1 ∧
      (renderCalls (loop p st now pending).2).length ≤ 1 := by
  have c1 := count_surface Event.ioRun rfl
  have c2 := count_surface Event.tempGet rfl
  have c3 := count_surface Event.humidityGet rfl
  refine ⟨?_, ?_, ?_, ?_⟩
  · rw [loop_eq]
    unfold runBlock feedBlock displayBlock
    split_ifs <;> simp [List.count_cons, c1]
  · rw [loop_eq]
    unfold runBlock feedBlock displayBlock
    split_ifs <;> simp [List.count_cons, c2]
  · rw [loop_eq]
    unfold runBlock feedBlock displayBlock
    split_ifs <;> simp [List.count_cons, c3]
  · rw [renderCalls_loop]
    split_ifs <;> simp

/-- C10 (value ingestion): `updateTemp(v)` stores `v` in `lastTemp`, sets
`tempUpdated` and leaves `lastHum`, `humidityUpdated` and the three timestamps as
they were; `updateHumidity(v)` does the same for `lastHum` and `humidityUpdated`. -/
theorem C10_value_ingestion (st : ProgramState) (v : ℚ) :
    ((updateTemp st v).lastTemp = v ∧ (updateTemp st v).tempUpdated = true ∧
        (updateTemp st v).lastHum = st.lastHum ∧
        (updateTemp st v).humidityUpdated = st.humidityUpdated ∧
        (updateTemp st v).previousRunMillis = st.previousRunMillis ∧
        (updateTemp st v).previousFeedMillis = st.previousFeedMillis ∧
        (updateTemp st v).previousUpdateMillis = st.previousUpdateMillis) ∧
      ((updateHumidity st v).lastHum = v ∧ (updateHumidity st v).humidityUpdated = true ∧
        (updateHumidity st v).lastTemp = st.lastTemp ∧
        (updateHumidity st v).tempUpdated = st.tempUpdated ∧
        (updateHumidity st v).previousRunMillis = st.previousRunMillis ∧
        (updateHumidity st v).previousFeedMillis = st.previousFeedMillis ∧
        (updateHumidity st v).previousUpdateMillis = st.previousUpdateMillis) :=
  ⟨⟨rfl, rfl, rfl, rfl, rfl, rfl, rfl⟩, ⟨rfl, rfl, rfl, rfl, rfl, rfl, rfl⟩⟩

/-! ### The display block and the changed-flags -/

/-- The readings are never touched by the display part of `loop()`, and the
changed-flags change only when `updateDisplay` is called. -/
theorem loop_after_display (p : Platform) (st : ProgramState) (now : Nat)
    (pending : List Message) :
    (loop p st now pending).1.lastTemp = (beforeDisplay st now pending).lastTemp ∧
      (loop p st now pending).1.lastHum = (beforeDisplay st now pending).lastHum ∧
      (renderCalls (loop p st now pending).2 = [] →
        (loop p st now pending).1.tempUpdated = (beforeDisplay st now pending).tempUpdated ∧
        (loop p st now pending).1.humidityUpdated =
          (beforeDisplay st now pending).humidityUpdated) := by
  have hb := beforeDisplay_previousUpdateMillis st now pending
  refine ⟨?_, ?_, ?_⟩
  · rw [loop_eq]
    unfold displayBlock
    split_ifs <;> rfl
  · rw [loop_eq]
    unfold displayBlock
    split_ifs <;> rfl
  · intro hnil
    rw [renderCalls_loop] at hnil
    by_cases h0 : st.previousUpdateMillis = 0
    · rw [loop_eq, if_pos h0]
      exact ⟨rfl, rfl⟩
    · by_cases hd : due now st.previousUpdateMillis DISPLAY_UPDATE_INTERVAL = true
      · by_cases hw : renderWorthy (beforeDisplay st now pending) = true
        · rw [if_pos ⟨h0, hd, hw⟩] at hnil
          exact absurd hnil (List.cons_ne_nil _ _)
        · rw [loop_eq, if_neg h0]
          simp [displayBlock, hb, hd, hw]
      · rw [loop_eq, if_neg h0]
        simp [displayBlock, hb, hd]

/-- With no message delivered, the state in which the display part runs has the
flags of the state in which `loop()` was called. -/
theorem beforeDisplay_flags_quiet (st : ProgramState) (now : Nat) :
    (beforeDisplay st now []).tempUpdated = st.tempUpdated ∧
      (beforeDisplay st now []).humidityUpdated = st.humidityUpdated :=
  ⟨(beforeDisplay_quiet st now).1, (beforeDisplay_quiet st now).2.1⟩

/-- Handlers only ever set the changed-flags. -/
theorem deliver_keeps_set (pending : List Message) :
    ∀ st : ProgramState,
      (st.tempUpdated = true → (deliver st pending).tempUpdated = true) ∧
        (st.humidityUpdated = true → (deliver st pending).humidityUpdated = true) := by
  unfold deliver
  induction pending with
  | nil => intro st; exact ⟨id, id⟩
  | cons m ms ih =>
    intro st
    rw [List.foldl_cons]
    obtain ⟨i1, i2⟩ := ih (onMessage st m)
    constructor
    · intro h
      apply i1
      cases m <;> simp [onMessage, updateTemp, updateHumidity, h]
    · intro h
      apply i2
      cases m <;> simp [onMessage, updateTemp, updateHumidity, h]

/-- A flag set when `loop()` is called is still set when the display part runs. -/
theorem beforeDisplay_keeps_set (st : ProgramState) (now : Nat) (pending : List Message) :
    (st.tempUpdated = true → (beforeDisplay st now pending).tempUpdated = true) ∧
      (st.humidityUpdated = true → (beforeDisplay st now pending).humidityUpdated = true) := by
  obtain ⟨d1, d2⟩ := deliver_keeps_set pending st
  unfold beforeDisplay feedBlock runBlock
  split_ifs
  · exact ⟨d1, d2⟩
  · exact ⟨d1, d2⟩
  · exact ⟨id, id⟩
  · exact ⟨id, id⟩

/-- C11 (no update is dropped unrendered): if a changed-flag is set when the
display part of a `loop()` call runs and clear when the call returns, that call
invoked `updateDisplay`, which read the `lastTemp` and `lastHum` stored when the
call returns; and in a call that does not invoke `updateDisplay` both flags keep
the value they had when the display part ran, which is the value they had when the
call started if no handler ran in it; a flag that was set when the call started is
then still set. -/
theorem C11_no_update_dropped (p : Platform) (st : ProgramState) (now : Nat)
    (pending : List Message) :
    ((((beforeDisplay st now pending).tempUpdated = true ∧
          (loop p st now pending).1.tempUpdated = false) ∨
        ((beforeDisplay st now pending).humidityUpdated = true ∧
          (loop p st now pending).1.humidityUpdated = false)) →
      renderCalls (loop p st now pending).2 =
        [Event.updateDisplay (loop p st now pending).1.lastTemp
          (loop p st now pending).1.lastHum]) ∧
      (renderCalls (loop p st now pending).2 = [] →
        (loop p st now pending).1.tempUpdated = (beforeDisplay st now pending).tempUpdated ∧
        (loop p st now pending).1.humidityUpdated =
          (beforeDisplay st now pending).humidityUpdated) ∧
      (renderCalls (loop p st now []).2 = [] →
        (loop p st now []).1.tempUpdated = st.tempUpdated ∧
        (loop p st now []).1.humidityUpdated = st.humidityUpdated) ∧
      (renderCalls (loop p st now pending).2 = [] →
        (st.tempUpdated = true → (loop p st now pending).1.tempUpdated = true) ∧
        (st.humidityUpdated = true → (loop p st now pending).1.humidityUpdated = true)) := by
  obtain ⟨v1, v2, hkeep⟩ := loop_after_display p st now pending
  refine ⟨?_, hkeep, ?_, ?_⟩
  rotate_left 2
  · intro hn
    obtain ⟨k1, k2⟩ := hkeep hn
    obtain ⟨b1, b2⟩ := beforeDisplay_keeps_set st now pending
    exact ⟨fun h => k1.trans (b1 h), fun h => k2.trans (b2 h)⟩
  · intro hdrop
    have hr := renderCalls_loop p st now pending
    by_cases hc : st.previousUpdateMillis ≠ 0 ∧
        due now st.previousUpdateMillis DISPLAY_UPDATE_INTERVAL = true ∧
        renderWorthy (beforeDisplay st now pending) = true
    · rw [if_pos hc] at hr
      rw [hr, v1, v2]
    · rw [if_neg hc] at hr
      obtain ⟨k1, k2⟩ := hkeep hr
      rcases hdrop with ⟨a, b⟩ | ⟨a, b⟩
      · rw [k1, a] at b
        exact absurd b (by decide)
      · rw [k2, a] at b
        exact absurd b (by decide)
  · intro hq
    obtain ⟨k1, k2⟩ := (loop_after_display p st now []).2.2 hq
    obtain ⟨q1, q2⟩ := beforeDisplay_flags_quiet st now
    exact ⟨k1.trans q1, k2.trans q2⟩

/-- C11 at two concrete calls: a stored temperature of 21 is rendered by the
display-due call at 301000, which clears its flag; the first call of the sketch
renders nothing and keeps both flags. -/
theorem C11_no_update_dropped_witness :
    (((beforeDisplay (updateTemp { initialState with previousUpdateMillis := 1000 } 21)
          301000 []).tempUpdated = true ∧
        (loop thinkInk290 (updateTemp { initialState with previousUpdateMillis := 1000 } 21)
          301000 []).1.tempUpdated = false) ∧
      renderCalls (loop thinkInk290
          (updateTemp { initialState with previousUpdateMillis := 1000 } 21) 301000 []).2 =
        [Event.updateDisplay
          (loop thinkInk290 (updateTemp { initialState with previousUpdateMillis := 1000 } 21)
            301000 []).1.lastTemp
          (loop thinkInk290 (updateTemp { initialState with previousUpdateMillis := 1000 } 21)
            301000 []).1.lastHum]) ∧
      (renderCalls (loop thinkInk290 initialState 1234 []).2 = [] ∧
        (loop thinkInk290 initialState 1234 []).1.tempUpdated = initialState.tempUpdated ∧
        (loop thinkInk290 initialState 1234 []).1.humidityUpdated =
          initialState.humidityUpdated) :=
  have h1 : (beforeDisplay (updateTemp { initialState with previousUpdateMillis := 1000 } 21)
        301000 []).tempUpdated = true ∧
      (loop thinkInk290 (updateTemp { initialState with previousUpdateMillis := 1000 } 21)
        301000 []).1.tempUpdated = false := by decide
  have h2 : renderCalls (loop thinkInk290 initialState 1234 []).2 = [] := by decide
  ⟨⟨h1, (C11_no_update_dropped thinkInk290 _ 301000 []).1 (Or.inl h1)⟩,
    h2, (C11_no_update_dropped thinkInk290 initialState 1234 []).2.2.1 h2⟩

/-! ### Border geometry -/

/-- C12: the border rectangles overlap.  For the one call the sketch makes,
`drawBorder(3, EPD_BLACK)` on the 296 x 128 panel, the ring pixel `(0, 127)` in the
bottom-left corner is painted by two of the four rectangles (bottom and left),
while the other three corners are painted once. -/
theorem C12_border_overlap :
    inRing thinkInk290.width thinkInk290.height BORDER_WIDTH 0 127 = true ∧
      paintCount (drawBorder thinkInk290 BORDER_WIDTH thinkInk290.EPD_BLACK) 0 127 = 2 ∧
      (SurfaceOp.fillRect 0 (thinkInk290.height - BORDER_WIDTH)
          (thinkInk290.width - BORDER_WIDTH) BORDER_WIDTH thinkInk290.EPD_BLACK).paints 0 127
        = true ∧
      (SurfaceOp.fillRect 0 BORDER_WIDTH BORDER_WIDTH (thinkInk290.height - BORDER_WIDTH)
          thinkInk290.EPD_BLACK).paints 0 127 = true ∧
      paintCount (drawBorder thinkInk290 BORDER_WIDTH thinkInk290.EPD_BLACK) 0 0 = 1 ∧
      paintCount (drawBorder thinkInk290 BORDER_WIDTH thinkInk290.EPD_BLACK) 295 0 = 1 ∧
      paintCount (drawBorder thinkInk290 BORDER_WIDTH thinkInk290.EPD_BLACK) 295 127 = 1 := by
  decide

/-- C13 (P5, conversion correctness): over exact arithmetic `cToF(c)` is
`c * 9/5 + 32`; in particular `cToF(0) = 32`, `cToF(100) = 212` and
`cToF(-50) = -58`. -/
theorem C13_cToF (c : ℚ) :
    cToF c = c * 9 / 5 + 32 ∧ cToF 0 = 32 ∧ cToF 100 = 212 ∧ cToF (-50) = -58 := by
  refine ⟨?_, ?_, ?_, ?_⟩
  · unfold cToF; ring
  · unfold cToF; norm_num
  · unfold cToF; norm_num
  · unfold cToF; norm_num

/-- C17 (border coverage): for `B >= 0`, `W > 2B` and `H > 2B` a pixel is painted by
one of the four rectangles of `drawBorder(B, color)` exactly when it lies in the
border ring of the `W` by `H` surface, every rectangle lies inside the surface, and
no pixel of the interior is painted. -/
theorem C17_border_coverage (p : Platform) (B : Int) (color : Nat) (px py : Int)
    (hB : 0 ≤ B) (hW : 2 * B < p.width) (hH : 2 * B < p.height) :
    (drawBorder p B color).any (fun r => r.paints px py) =
        inRing p.width p.height B px py ∧
      (drawBorder p B color).all (SurfaceOp.within p.width p.height) = true ∧
      (inInterior p.width p.height B px py = true →
        paintCount (drawBorder p B color) px py = 0) := by
  refine ⟨?_, ?_, ?_⟩
  · rw [Bool.eq_iff_iff]
    simp only [drawBorder, List.any_cons, List.any_nil, SurfaceOp.paints, inRing,
      Bool.or_false, Bool.or_eq_true, decide_eq_true_eq]
    omega
  · simp only [drawBorder, List.all_cons, List.all_nil, SurfaceOp.within, Bool.and_true,
      Bool.and_eq_true, decide_eq_true_eq]
    omega
  · intro hin
    simp only [inInterior, decide_eq_true_eq] at hin
    unfold paintCount
    rw [List.length_eq_zero, List.filter_eq_nil_iff]
    intro r hr
    simp only [drawBorder, List.mem_cons, List.mem_singleton, List.not_mem_nil, or_false] at hr
    rcases hr with rfl | rfl | rfl | rfl <;>
      simp only [SurfaceOp.paints, decide_eq_true_eq] <;> omega

/-- C17 on the panel of the sketch: the corner pixel `(0, 127)` is painted, the
interior pixel `(150, 60)` is not. -/
theorem C17_border_coverage_witness :
    (0 : Int) ≤ 3 ∧ 2 * 3 < thinkInk290.width ∧ 2 * 3 < thinkInk290.height ∧
      (drawBorder thinkInk290 3 1).any (fun r => r.paints 0 127) =
        inRing thinkInk290.width thinkInk290.height 3 0 127 ∧
      (drawBorder thinkInk290 3 1).all
        (SurfaceOp.within thinkInk290.width thinkInk290.height) = true ∧
      inInterior thinkInk290.width thinkInk290.height 3 150 60 = true ∧
      paintCount (drawBorder thinkInk290 3 1) 150 60 = 0 :=
  ⟨by decide, by decide, by decide,
    (C17_border_coverage thinkInk290 3 1 0 127 (by decide) (by decide) (by decide)).1,
    (C17_border_coverage thinkInk290 3 1 0 127 (by decide) (by decide) (by decide)).2.1,
    by decide,
    (C17_border_coverage thinkInk290 3 1 150 60 (by decide) (by decide) (by decide)).2.2
      (by decide)⟩

/-! ### The text scan -/

/-- With enough fuel the loop of lines 194-207 does what the specification says on
the characters `text[idx]`, ..., `text[n - 1]`. -/
theorem scanText_eq_scanSpec (xoff yoff : Int) (text : Nat → Char) (n : Nat) :
    ∀ (fuel idx : Nat) (lineno : Int), n - idx ≤ fuel →
      scanText xoff yoff text (n : Int) fuel idx lineno =
        scanSpec xoff yoff lineno ((List.range' idx (n - idx)).map text) := by
  intro fuel
  induction fuel with
  | zero =>
    intro idx lineno h
    have h0 : n - idx = 0 := by omega
    rw [h0]
    rfl
  | succ k ih =>
    intro idx lineno h
    unfold scanText
    by_cases hlt : (idx : Int) < (n : Int)
    · have hn : n - idx = (n - (idx + 1)) + 1 := by omega
      rw [if_pos hlt, hn, List.range'_succ, List.map_cons]
      unfold scanSpec
      by_cases hc : text idx = Char.ofNat 10
      · rw [if_pos hc, if_pos hc, ih (idx + 1) (lineno + 1) (by omega)]
      · rw [if_neg hc, if_neg hc, ih (idx + 1) lineno (by omega)]
    · have h0 : n - idx = 0 := by omega
      rw [if_neg hlt, h0]
      rfl

theorem scanSpec_length (xoff yoff : Int) (cs : List Char) :
    ∀ lineno : Int, (scanSpec xoff yoff lineno cs).length = cs.length := by
  induction cs with
  | nil => intro lineno; rfl
  | cons c cs ih =>
    intro lineno
    unfold scanSpec
    split_ifs <;> simp [ih]

theorem scanSpec_printed (xoff yoff : Int) (cs : List Char) :
    ∀ lineno : Int, (scanSpec xoff yoff lineno cs).filterMap SurfaceOp.printed =
      cs.filter (fun c => c != Char.ofNat 10) := by
  induction cs with
  | nil => intro lineno; rfl
  | cons c cs ih =>
    intro lineno
    unfold scanSpec
    by_cases hc : c = Char.ofNat 10
    · rw [if_pos hc, List.filterMap_cons]
      simp [SurfaceOp.printed, ih, hc]
    · rw [if_neg hc, List.filterMap_cons]
      simp [SurfaceOp.printed, ih, hc]

theorem scanSpec_cursor (xoff yoff : Int) (cs : List Char) :
    ∀ lineno : Int, (scanSpec xoff yoff lineno cs).filterMap SurfaceOp.cursor =
      (List.range (cs.count (Char.ofNat 10))).map
        (fun (i : Nat) => (xoff, yoff + 40 * (lineno + 1 + (i : Int)))) := by
  induction cs with
  | nil => intro lineno; rfl
  | cons c cs ih =>
    intro lineno
    unfold scanSpec
    by_cases hc : c = Char.ofNat 10
    · rw [if_pos hc, List.filterMap_cons]
      subst hc
      simp only [SurfaceOp.cursor, List.count_cons_self, List.range_succ_eq_map, List.map_cons,
        List.map_map, ih (lineno + 1)]
      refine congrArg₂ _ ?_ ?_
      · simp
      · apply List.map_congr_left
        intro i _
        simp only [Function.comp, Nat.succ_eq_add_one, Nat.cast_add, Nat.cast_one]
        congr 2
        ring
    · rw [if_neg hc, List.filterMap_cons]
      simp only [SurfaceOp.cursor, ih lineno]
      rw [List.count_cons_of_ne]
      exact fun h => hc h.symm

theorem textRead_natCast (text : Nat → Char) (n : Nat) :
    textRead text (n : Int) = (List.range' 0 n).map text := by
  unfold textRead
  rw [Int.toNat_ofNat, List.range_eq_range']

/-- The scan of `drawPaddedText` with any fuel from `n` on. -/
theorem scanText_enough (xoff yoff : Int) (text : Nat → Char) (n extra : Nat) :
    scanText xoff yoff text (n : Int) (n + extra) 0 0 =
      scanSpec xoff yoff 0 (textRead text (n : Int)) := by
  rw [scanText_eq_scanSpec xoff yoff text n (n + extra) 0 0 (by omega), textRead_natCast,
    Nat.sub_zero]

theorem drawPaddedText_eq (xoff yoff : Int) (text : Nat → Char) (n : Nat) (color : Nat) :
    drawPaddedText xoff yoff text (n : Int) color =
      [SurfaceOp.setTextWrap false, SurfaceOp.setTextColor color, SurfaceOp.setTextSize 5,
        SurfaceOp.setCursor xoff yoff] ++ scanSpec xoff yoff 0 (textRead text (n : Int)) := by
  have h := scanText_enough xoff yoff text n 0
  rw [Nat.add_zero] at h
  unfold drawPaddedText
  rw [Int.toNat_ofNat, h]

/-- C15 (text scan and line breaks): for a text of length `n`, `drawPaddedText`
first sets the cursor to `(xoff, yoff)` and then does on `text[0 .. n)` what the
specification says; the loop ends after exactly `n` iterations (more fuel changes
nothing, and each iteration issues one operation); the characters printed are the
characters of `text[0 .. n)` other than the line break, in their order; the cursor
positions set are `(xoff, yoff + 40 * i)` for `i = 0, 1, ...`, one more than there
are line breaks; and no line break is printed. -/
theorem C15_text_scan (xoff yoff : Int) (text : Nat → Char) (n extra : Nat) (color : Nat) :
    drawPaddedText xoff yoff text (n : Int) color =
        [SurfaceOp.setTextWrap false, SurfaceOp.setTextColor color, SurfaceOp.setTextSize 5,
          SurfaceOp.setCursor xoff yoff] ++
          scanSpec xoff yoff 0 (textRead text (n : Int)) ∧
      scanText xoff yoff text (n : Int) (n + extra) 0 0 =
        scanText xoff yoff text (n : Int) n 0 0 ∧
      (scanText xoff yoff text (n : Int) n 0 0).length = n ∧
      (drawPaddedText xoff yoff text (n : Int) color).filterMap SurfaceOp.printed =
        (textRead text (n : Int)).filter (fun c => c != Char.ofNat 10) ∧
      (drawPaddedText xoff yoff text (n : Int) color).filterMap SurfaceOp.cursor =
        (List.range (1 + (textRead text (n : Int)).count (Char.ofNat 10))).map
          (fun (i : Nat) => (xoff, yoff + 40 * (i : Int))) ∧
      ((drawPaddedText xoff yoff text (n : Int) color).filterMap SurfaceOp.cursor).length =
        1 + (textRead text (n : Int)).count (Char.ofNat 10) ∧
      Char.ofNat 10 ∉
        (drawPaddedText xoff yoff text (n : Int) color).filterMap SurfaceOp.printed := by
  have hd := drawPaddedText_eq xoff yoff text n color
  have h0 := scanText_enough xoff yoff text n 0
  rw [Nat.add_zero] at h0
  have hp : (drawPaddedText xoff yoff text (n : Int) color).filterMap SurfaceOp.printed =
      (textRead text (n : Int)).filter (fun c => c != Char.ofNat 10) := by
    rw [hd, List.filterMap_append, scanSpec_printed]
    rfl
  have hc : (drawPaddedText xoff yoff text (n : Int) color).filterMap SurfaceOp.cursor =
      (List.range (1 + (textRead text (n : Int)).count (Char.ofNat 10))).map
        (fun (i : Nat) => (xoff, yoff + 40 * (i : Int))) := by
    rw [hd, List.filterMap_append, scanSpec_cursor, Nat.add_comm 1, List.range_succ_eq_map,
      List.map_cons, List.map_map]
    have e1 : List.filterMap SurfaceOp.cursor
        [SurfaceOp.setTextWrap false, SurfaceOp.setTextColor color, SurfaceOp.setTextSize 5,
          SurfaceOp.setCursor xoff yoff] = [(xoff, yoff)] := rfl
    rw [e1, List.singleton_append]
    refine congrArg₂ _ ?_ ?_
    · simp
    · apply List.map_congr_left
      intro i _
      simp only [Function.comp, Nat.succ_eq_add_one, Nat.cast_add, Nat.cast_one]
      congr 2
      ring
  refine ⟨hd, ?_, ?_, hp, hc, ?_, ?_⟩
  · rw [scanText_enough, h0]
  · rw [h0, scanSpec_length, textRead_natCast, List.length_map, List.length_range']
  · rw [hc, List.length_map, List.length_range]
  · rw [hp]
    intro hmem
    have := (List.mem_filter.1 hmem).2
    simp at this

/-! ### The render sequence -/

/-- The scan issues `print` and `setCursor` calls only. -/
theorem scanText_no_display (xoff yoff : Int) (text : Nat → Char) (len : Int) :
    ∀ (fuel idx : Nat) (lineno : Int),
      (scanText xoff yoff text len fuel idx lineno).count SurfaceOp.display = 0 := by
  intro fuel
  induction fuel with
  | zero => intro idx lineno; rfl
  | succ k ih =>
    intro idx lineno
    unfold scanText
    split_ifs
    · rw [List.count_cons_of_ne (by simp), ih]
    · rw [List.count_cons_of_ne (by simp), ih]
    · rfl

/-- The length the C library model returns is positive. -/
theorem snprintf32_pos (t f h : ℚ) : 0 < (snprintf32 t f h).2 := by
  simp only [snprintf32, formatReadings, List.length_append, List.length_cons, List.length_nil]
  omega

/-- C16 (render sequence and defensive no-op): when the length `snprintf` returns is
not positive, `updateDisplay` issues no Render Surface operation; when it is
positive, the operations are `fillScreen(fillColor)`, the four `fillRect` calls of
the border, all in `drawColor`, the text drawn from `(15 * BORDER_WIDTH,
2 * BORDER_WIDTH)`, and one `display()`, which comes last and occurs only once. -/
theorem C16_render_sequence (p : Platform) (st : ProgramState) (borderWidth : Int)
    (fillColor drawColor : Nat) :
    ((p.snprintf st.lastTemp (cToF32 st.lastTemp) st.lastHum).2 ≤ 0 →
        updateDisplay p st borderWidth fillColor drawColor = []) ∧
      (0 < (p.snprintf st.lastTemp (cToF32 st.lastTemp) st.lastHum).2 →
        updateDisplay p st borderWidth fillColor drawColor =
            SurfaceOp.fillScreen fillColor ::
              (drawBorder p borderWidth drawColor ++
                (drawPaddedText (15 * BORDER_WIDTH) (2 * BORDER_WIDTH)
                    (p.snprintf st.lastTemp (cToF32 st.lastTemp) st.lastHum).1
                    (p.snprintf st.lastTemp (cToF32 st.lastTemp) st.lastHum).2 drawColor ++
                  [SurfaceOp.display])) ∧
          (updateDisplay p st borderWidth fillColor drawColor).getLast? =
            some SurfaceOp.display ∧
          (updateDisplay p st borderWidth fillColor drawColor).count SurfaceOp.display = 1) ∧
      (drawBorder p borderWidth drawColor).map SurfaceOp.fillColor =
        [some drawColor, some drawColor, some drawColor, some drawColor] ∧
      (drawPaddedText (15 * BORDER_WIDTH) (2 * BORDER_WIDTH)
          (p.snprintf st.lastTemp (cToF32 st.lastTemp) st.lastHum).1
          (p.snprintf st.lastTemp (cToF32 st.lastTemp) st.lastHum).2 drawColor).take 4 =
        [SurfaceOp.setTextWrap false, SurfaceOp.setTextColor drawColor,
          SurfaceOp.setTextSize 5,
          SurfaceOp.setCursor (15 * BORDER_WIDTH) (2 * BORDER_WIDTH)] := by
  refine ⟨?_, ?_, rfl, rfl⟩
  · intro hle
    unfold updateDisplay
    simp only
    rw [if_neg (by omega)]
  · intro hpos
    have heq : updateDisplay p st borderWidth fillColor drawColor =
        SurfaceOp.fillScreen fillColor ::
          (drawBorder p borderWidth drawColor ++
            (drawPaddedText (15 * BORDER_WIDTH) (2 * BORDER_WIDTH)
                (p.snprintf st.lastTemp (cToF32 st.lastTemp) st.lastHum).1
                (p.snprintf st.lastTemp (cToF32 st.lastTemp) st.lastHum).2 drawColor ++
              [SurfaceOp.display])) := by
      unfold updateDisplay
      simp only
      rw [if_pos hpos, Int.mul_comm 15, Int.mul_comm 2]
      simp only [List.append_assoc, List.singleton_append, List.cons_append, List.nil_append]
    refine ⟨heq, ?_, ?_⟩
    · rw [heq, ← List.cons_append, ← List.append_assoc, List.getLast?_append]
      rfl
    · rw [heq, List.count_cons_of_ne (by simp), List.count_append, List.count_append]
      have hb : (drawBorder p borderWidth drawColor).count SurfaceOp.display = 0 := by
        rw [List.count_eq_zero]
        simp [drawBorder]
      have ht : (drawPaddedText (15 * BORDER_WIDTH) (2 * BORDER_WIDTH)
          (p.snprintf st.lastTemp (cToF32 st.lastTemp) st.lastHum).1
          (p.snprintf st.lastTemp (cToF32 st.lastTemp) st.lastHum).2 drawColor).count
            SurfaceOp.display = 0 := by
        unfold drawPaddedText
        rw [List.count_append, scanText_no_display]
        rfl
      rw [hb, ht]
      rfl

/-- C16 on the panel of the sketch with a reading of 21.5 and 47.25, and on a
platform whose `snprintf` fails. -/
theorem C16_render_sequence_witness :
    (0 < (thinkInk290.snprintf (43 / 2) (cToF32 (43 / 2)) (189 / 4)).2 ∧
        (updateDisplay thinkInk290 { initialState with lastTemp := 43 / 2, lastHum := 189 / 4 }
          BORDER_WIDTH 0 1).getLast? = some SurfaceOp.display ∧
        (updateDisplay thinkInk290 { initialState with lastTemp := 43 / 2, lastHum := 189 / 4 }
          BORDER_WIDTH 0 1).count SurfaceOp.display = 1) ∧
      ((failingPrintf.snprintf (43 / 2) (cToF32 (43 / 2)) (189 / 4)).2 ≤ 0 ∧
        updateDisplay failingPrintf { initialState with lastTemp := 43 / 2, lastHum := 189 / 4 }
          BORDER_WIDTH 0 1 = []) :=
  ⟨⟨snprintf32_pos _ _ _,
      ((C16_render_sequence thinkInk290
        { initialState with lastTemp := 43 / 2, lastHum := 189 / 4 } BORDER_WIDTH 0 1).2.1
          (snprintf32_pos _ _ _)).2⟩,
    by decide,
    (C16_render_sequence failingPrintf
      { initialState with lastTemp := 43 / 2, lastHum := 189 / 4 } BORDER_WIDTH 0 1).1
        (by decide)⟩

/-! ### Rounding -/

/-- The integer within less than a half of `x` is what `roundHalfEven` returns. -/
theorem roundHalfEven_eq (x : ℚ) (m : Int) (h1 : (m : ℚ) - 1 / 2 < x)
    (h2 : x < (m : ℚ) + 1 / 2) : roundHalfEven x = m := by
  unfold roundHalfEven
  rcases le_or_lt (m : ℚ) x with hle | hlt
  · have hf : Int.floor x = m := by
      rw [Int.floor_eq_iff]
      constructor
      · exact hle
      · linarith
    simp only [hf]
    rw [if_pos (by linarith)]
  · have hf : Int.floor x = m - 1 := by
      rw [Int.floor_eq_iff]
      push_cast
      constructor
      · linarith
      · linarith
    simp only [hf]
    push_cast
    rw [if_neg (by linarith), if_pos (by linarith)]
    ring

/-- Half way between `k` and `k + 1` the even one of the two is returned. -/
theorem roundHalfEven_tie (x : ℚ) (k : Int) (h : x = (k : ℚ) + 1 / 2) :
    roundHalfEven x = if k % 2 = 0 then k else k + 1 := by
  have hf : Int.floor x = k := by
    rw [Int.floor_eq_iff]
    constructor <;> linarith
  unfold roundHalfEven
  simp only [hf]
  rw [if_neg (by linarith), if_neg (by linarith)]

/-- The value `roundHalfEven` returns is an integer within a half of its argument. -/
theorem roundHalfEven_near (x : ℚ) :
    |x - (roundHalfEven x : ℚ)| ≤ 1 / 2 := by
  have h1 := Int.floor_le x
  have h2 := Int.lt_floor_add_one x
  unfold roundHalfEven
  simp only
  rw [abs_le]
  split_ifs with c1 c2 c3
  · constructor <;> linarith
  · push_cast
    constructor <;> linarith
  · constructor <;> linarith
  · push_cast
    constructor <;> linarith

theorem roundHalfEven_nonneg (x : ℚ) (hx : 0 ≤ x) : 0 ≤ roundHalfEven x := by
  have hf : 0 ≤ Int.floor x := Int.floor_nonneg.2 hx
  unfold roundHalfEven
  simp only
  split_ifs <;> omega

theorem roundHalfEven_intCast (k : Int) : roundHalfEven (k : ℚ) = k := by
  unfold roundHalfEven
  simp only [Int.floor_intCast, sub_self]
  rw [if_pos (by norm_num)]

/-- The binary exponent of a positive value. -/
theorem int_log_two_eq (q : ℚ) (e : Int) (h1 : (2 : ℚ) ^ e ≤ q) (h2 : q < (2 : ℚ) ^ (e + 1)) :
    Int.log 2 q = e := by
  have hpos : 0 < q := lt_of_lt_of_le (zpow_pos (by norm_num) e) h1
  have a1 : e ≤ Int.log 2 q := by
    rw [← Int.zpow_le_iff_le_log (by norm_num) hpos]
    exact_mod_cast h1
  have a2 : Int.log 2 q < e + 1 := by
    rw [← Int.lt_zpow_iff_log_lt (by norm_num) hpos]
    exact_mod_cast h2
  omega

/-- The rounding of `q`, read off its exponent `e` and the integer `m` nearest to
`q` counted in units of the last place. -/
theorem roundToBits_eq (prec : Nat) (q a v : ℚ) (e m : Int) (ha : |q| = a)
    (h1 : (2 : ℚ) ^ e ≤ a) (h2 : a < (2 : ℚ) ^ (e + 1))
    (h3 : (m : ℚ) - 1 / 2 < q / (2 : ℚ) ^ (e - ((prec : Int) - 1)))
    (h4 : q / (2 : ℚ) ^ (e - ((prec : Int) - 1)) < (m : ℚ) + 1 / 2)
    (hv : v = (m : ℚ) * (2 : ℚ) ^ (e - ((prec : Int) - 1))) :
    roundToBits prec q = v := by
  subst ha
  have hq : q ≠ 0 := by
    intro h0
    rw [h0, abs_zero] at h1
    exact absurd h1 (not_le.2 (zpow_pos (by norm_num) e))
  unfold roundToBits
  rw [if_neg hq]
  simp only [int_log_two_eq |q| e h1 h2]
  rw [roundHalfEven_eq _ m h3 h4, hv]

/-- The `float` that `cToF` returns for 21.5: the one nearest to 70.7. -/
theorem cToF32_example : cToF32 (43 / 2) = 4633395 / 65536 := by
  unfold cToF32
  rw [roundToBits_eq 53 _ (9 / 5) (8106479329266893 / 4503599627370496) 0 8106479329266893
    (abs_of_pos (by norm_num)) (by norm_num) (by norm_num) (by norm_num) (by norm_num)
    (by norm_num)]
  rw [roundToBits_eq 53 _ (8106479329266893 / 4503599627370496 * (43 / 2))
    (2723270399675597 / 70368744177664) 5 5446540799351194
    (abs_of_pos (by norm_num)) (by norm_num) (by norm_num) (by norm_num) (by norm_num)
    (by norm_num)]
  rw [roundToBits_eq 53 _ (2723270399675597 / 70368744177664 + 32)
    (4975070213360845 / 70368744177664) 6 4975070213360845
    (abs_of_pos (by norm_num)) (by norm_num) (by norm_num) (by norm_num) (by norm_num)
    (by norm_num)]
  rw [roundToBits_eq 24 _ (4975070213360845 / 70368744177664) (4633395 / 65536) 6 9266790
    (abs_of_pos (by norm_num)) (by norm_num) (by norm_num) (by norm_num) (by norm_num)
    (by norm_num)]

/-- The `float` that `cToF` returns for 1000000. -/
theorem cToF32_long : cToF32 1000000 = 1800032 := by
  unfold cToF32
  rw [roundToBits_eq 53 _ (9 / 5) (8106479329266893 / 4503599627370496) 0 8106479329266893
    (abs_of_pos (by norm_num)) (by norm_num) (by norm_num) (by norm_num) (by norm_num)
    (by norm_num)]
  rw [roundToBits_eq 53 _ (8106479329266893 / 4503599627370496 * 1000000)
    (1800000) 20 7730941132800000
    (abs_of_pos (by norm_num)) (by norm_num) (by norm_num) (by norm_num) (by norm_num)
    (by norm_num)]
  rw [roundToBits_eq 53 _ (1800000 + 32) (1800032) 20 7731078571753472
    (abs_of_pos (by norm_num)) (by norm_num) (by norm_num) (by norm_num) (by norm_num)
    (by norm_num)]
  rw [roundToBits_eq 24 _ (1800032) (1800032) 20 14400256
    (abs_of_pos (by norm_num)) (by norm_num) (by norm_num) (by norm_num) (by norm_num)
    (by norm_num)]

/-- The `float` that `cToF` returns for 0.375: the one nearest to 32.675, which lies
below it. -/
theorem cToF32_rounded : cToF32 (3 / 8) = 8565555 / 262144 := by
  unfold cToF32
  rw [roundToBits_eq 53 _ (9 / 5) (8106479329266893 / 4503599627370496) 0 8106479329266893
    (abs_of_pos (by norm_num)) (by norm_num) (by norm_num) (by norm_num) (by norm_num)
    (by norm_num)]
  rw [roundToBits_eq 53 _ (8106479329266893 / 4503599627370496 * (3 / 8))
    (3039929748475085 / 4503599627370496) (-1) 6079859496950170
    (abs_of_pos (by norm_num)) (by norm_num) (by norm_num) (by norm_num) (by norm_num)
    (by norm_num)]
  rw [roundToBits_eq 53 _ (3039929748475085 / 4503599627370496 + 32)
    (2299298716005171 / 70368744177664) 5 4598597432010342
    (abs_of_pos (by norm_num)) (by norm_num) (by norm_num) (by norm_num) (by norm_num)
    (by norm_num)]
  rw [roundToBits_eq 24 _ (2299298716005171 / 70368744177664) (8565555 / 262144) 5 8565555
    (abs_of_pos (by norm_num)) (by norm_num) (by norm_num) (by norm_num) (by norm_num)
    (by norm_num)]


theorem roundToBits_zero (prec : Nat) : roundToBits prec 0 = 0 := by
  unfold roundToBits
  rw [if_pos rfl]

/-- At 0, 100 and -50 the `float` that `cToF` returns is the exact value of the
formula. -/
theorem cToF32_exact_values :
    cToF32 0 = cToF 0 ∧ cToF32 100 = cToF 100 ∧ cToF32 (-50) = cToF (-50) := by
  have v0 : cToF 0 = 32 := by unfold cToF; norm_num
  have v1 : cToF 100 = 212 := by unfold cToF; norm_num
  have v2 : cToF (-50) = -58 := by unfold cToF; norm_num
  rw [v0, v1, v2]
  refine ⟨?_, ?_, ?_⟩
  · unfold cToF32
    rw [roundToBits_eq 53 _ (9 / 5)
      (8106479329266893 / 4503599627370496) 0 8106479329266893
      (abs_of_pos (by norm_num)) (by norm_num) (by norm_num) (by norm_num) (by norm_num)
      (by norm_num)]
    rw [mul_zero, roundToBits_zero]
    rw [roundToBits_eq 53 _ (0 + 32)
      32 5 4503599627370496
      (abs_of_pos (by norm_num)) (by norm_num) (by norm_num) (by norm_num) (by norm_num)
      (by norm_num)]
    rw [roundToBits_eq 24 _ 32
      32 5 8388608
      (abs_of_pos (by norm_num)) (by norm_num) (by norm_num) (by norm_num) (by norm_num)
      (by norm_num)]
  · unfold cToF32
    rw [roundToBits_eq 53 _ (9 / 5)
      (8106479329266893 / 4503599627370496) 0 8106479329266893
      (abs_of_pos (by norm_num)) (by norm_num) (by norm_num) (by norm_num) (by norm_num)
      (by norm_num)]
    rw [roundToBits_eq 53 _ (8106479329266893 / 4503599627370496 * 100)
      180 7 6333186975989760
      (abs_of_pos (by norm_num)) (by norm_num) (by norm_num) (by norm_num) (by norm_num)
      (by norm_num)]
    rw [roundToBits_eq 53 _ (180 + 32)
      212 7 7459086882832384
      (abs_of_pos (by norm_num)) (by norm_num) (by norm_num) (by norm_num) (by norm_num)
      (by norm_num)]
    rw [roundToBits_eq 24 _ 212
      212 7 13893632
      (abs_of_pos (by norm_num)) (by norm_num) (by norm_num) (by norm_num) (by norm_num)
      (by norm_num)]
  · unfold cToF32
    rw [roundToBits_eq 53 _ (9 / 5)
      (8106479329266893 / 4503599627370496) 0 8106479329266893
      (abs_of_pos (by norm_num)) (by norm_num) (by norm_num) (by norm_num) (by norm_num)
      (by norm_num)]
    rw [roundToBits_eq 53 (8106479329266893 / 4503599627370496 * (-50))
      (202661983231672325 / 2251799813685248)
      (-90) 6 (-6333186975989760)
      (by rw [abs_of_neg (by norm_num)]; norm_num) (by norm_num) (by norm_num) (by norm_num)
      (by norm_num) (by norm_num)]
    rw [roundToBits_eq 53 (-90 + 32) 58
      (-58) 5 (-8162774324609024)
      (by rw [abs_of_neg (by norm_num)]; norm_num) (by norm_num) (by norm_num) (by norm_num)
      (by norm_num) (by norm_num)]
    rw [roundToBits_eq 24 (-58) 58
      (-58) 5 (-15204352)
      (by rw [abs_of_neg (by norm_num)]; norm_num) (by norm_num) (by norm_num) (by norm_num)
      (by norm_num) (by norm_num)]

/-! ### The formatted text -/

/-- The `%.2f` conversion of a non-negative number of hundredths. -/
theorem formatF2_hundredths (n : Nat) :
    formatF2 ((n : ℚ) / 100) =
      Nat.toDigits 10 (n / 100) ++ ['.', Nat.digitChar (n / 10 % 10), Nat.digitChar (n % 10)] := by
  have hnn : (0 : ℚ) ≤ (n : ℚ) / 100 := by positivity
  have habs : |(n : ℚ) / 100| * 100 = ((n : Int) : ℚ) := by
    rw [abs_of_nonneg hnn]
    push_cast
    field_simp
  unfold formatF2
  simp only [habs, roundHalfEven_intCast, Int.toNat_ofNat]
  rw [if_neg (not_lt.2 hnn)]
  rfl

/-- The `%.2f` conversion of a non-negative value that is within less than half a
hundredth of `n` hundredths. -/
theorem formatF2_eq (q : ℚ) (n : Nat) (hq : 0 ≤ q) (h1 : (n : ℚ) - 1 / 2 < q * 100)
    (h2 : q * 100 < (n : ℚ) + 1 / 2) : formatF2 q = twoDecimalNumeral false n := by
  have hr : roundHalfEven (|q| * 100) = (n : Int) := by
    rw [abs_of_nonneg hq]
    apply roundHalfEven_eq
    · push_cast; exact h1
    · push_cast; exact h2
  unfold formatF2 twoDecimalNumeral
  simp only [hr, Int.toNat_ofNat]
  rw [if_neg (not_lt.2 hq)]
  rfl

/-- The `%.2f` conversion of a non-negative value half way between `k` and `k + 1`
hundredths. -/
theorem formatF2_tie (q : ℚ) (k : Nat) (hq : 0 ≤ q) (h : q * 100 = (k : ℚ) + 1 / 2) :
    formatF2 q = twoDecimalNumeral false (if k % 2 = 0 then k else k + 1) := by
  have hr : roundHalfEven (|q| * 100) = if (k : Int) % 2 = 0 then (k : Int) else (k : Int) + 1 := by
    rw [abs_of_nonneg hq]
    apply roundHalfEven_tie
    push_cast
    exact h
  have hn : (roundHalfEven (|q| * 100)).toNat = if k % 2 = 0 then k else k + 1 := by
    rw [hr]
    split_ifs <;> omega
  unfold formatF2 twoDecimalNumeral
  simp only [hn]
  rw [if_neg (not_lt.2 hq)]
  rfl

/-- The C library's `%.2f` gives its argument with 2 decimal places. -/
theorem formatF2_spec (q : ℚ) : IsTwoDecimalPlaces q (formatF2 q) := by
  have hnn : (0 : ℚ) ≤ |q| * 100 := by positivity
  have h0 := roundHalfEven_nonneg (|q| * 100) hnn
  have hcast : (((roundHalfEven (|q| * 100)).toNat : Nat) : ℚ) =
      ((roundHalfEven (|q| * 100) : Int) : ℚ) := by
    rw [← Int.cast_natCast, Int.toNat_of_nonneg h0]
  refine ⟨(roundHalfEven (|q| * 100)).toNat, ?_, ?_⟩
  · rw [hcast]
    exact roundHalfEven_near _
  · unfold formatF2 twoDecimalNumeral
    by_cases hneg : q < 0
    · simp [hneg]
    · simp [hneg]

/-- A text of at most 31 characters is read back from the buffer unchanged. -/
theorem textRead_buffer (text : List Char) (h : text.length ≤ 31) :
    textRead (fun i => if i < 31 then text.getD i (Char.ofNat 0) else Char.ofNat 0)
      (text.length : Int) = text := by
  unfold textRead
  rw [Int.toNat_ofNat]
  apply List.ext_getElem
  · simp
  · intro i h1 h2
    simp only [List.length_map, List.length_range] at h1
    simp only [List.getElem_map, List.getElem_range]
    rw [if_pos (by omega), List.getD_eq_getElem _ _ h2]

/-- The text for a temperature of 21.5 and a humidity of 47.25. -/
theorem formatReadings_example :
    formatReadings (43 / 2) (cToF32 (43 / 2)) (189 / 4) =
      ['2', '1', '.', '5', '0', ' ', 'C', Char.ofNat 10, '7', '0', '.', '7', '0', ' ', 'F',
        Char.ofNat 10, '4', '7', '.', '2', '5', ' ', '%'] := by
  have e1 : (43 / 2 : ℚ) = ((2150 : ℕ) : ℚ) / 100 := by norm_num
  have e2 : formatF2 (4633395 / 65536) = twoDecimalNumeral false 7070 :=
    formatF2_eq _ 7070 (by norm_num) (by norm_num) (by norm_num)
  have e3 : (189 / 4 : ℚ) = ((4725 : ℕ) : ℚ) / 100 := by norm_num
  unfold formatReadings
  rw [cToF32_example, e2, e1, e3, formatF2_hundredths, formatF2_hundredths]
  decide

/-- The text for a temperature of 0.375 and a humidity of 0.125: both lie half way
between two hundredths, and the converted temperature is a `float` just below
32.675. -/
theorem formatReadings_rounded :
    formatReadings (3 / 8) (cToF32 (3 / 8)) (1 / 8) =
      ['0', '.', '3', '8', ' ', 'C', Char.ofNat 10, '3', '2', '.', '6', '7', ' ', 'F',
        Char.ofNat 10, '0', '.', '1', '2', ' ', '%'] := by
  have e1 : formatF2 (3 / 8) = twoDecimalNumeral false (if 37 % 2 = 0 then 37 else 37 + 1) :=
    formatF2_tie _ 37 (by norm_num) (by norm_num)
  have e2 : formatF2 (8565555 / 262144) = twoDecimalNumeral false 3267 :=
    formatF2_eq _ 3267 (by norm_num) (by norm_num) (by norm_num)
  have e3 : formatF2 (1 / 8) = twoDecimalNumeral false (if 12 % 2 = 0 then 12 else 12 + 1) :=
    formatF2_tie _ 12 (by norm_num) (by norm_num)
  unfold formatReadings
  rw [cToF32_rounded, e1, e2, e3]
  decide

/-- The text for a temperature of 1000000 and a humidity of 50: 33 characters. -/
theorem formatReadings_long :
    formatReadings 1000000 (cToF32 1000000) 50 =
      ['1', '0', '0', '0', '0', '0', '0', '.', '0', '0', ' ', 'C', Char.ofNat 10,
        '1', '8', '0', '0', '0', '3', '2', '.', '0', '0', ' ', 'F', Char.ofNat 10,
        '5', '0', '.', '0', '0', ' ', '%'] := by
  have e1 : (1000000 : ℚ) = ((100000000 : ℕ) : ℚ) / 100 := by norm_num
  have e2 : (1800032 : ℚ) = ((180003200 : ℕ) : ℚ) / 100 := by norm_num
  have e3 : (50 : ℚ) = ((5000 : ℕ) : ℚ) / 100 := by norm_num
  unfold formatReadings
  rw [cToF32_long, e2, e1, e3, formatF2_hundredths, formatF2_hundredths, formatF2_hundredths]
  decide

/-- C14, as stated, fails for long readings: for a temperature of 1000000 and a
humidity of 50 `snprintf` is asked for 33 characters, the buffer keeps the first 31
and a NUL, and the text handed to `drawPaddedText` is not three lines of the stated
form, whatever the numerals: it does not end with the humidity's " %" suffix. -/
theorem C14_truncated_counterexample :
    (thinkInk290.snprintf 1000000 (cToF32 1000000) 50).2 = 33 ∧
      (thinkInk290.snprintf 1000000 (cToF32 1000000) 50).1 31 = Char.ofNat 0 ∧
      ¬ ∃ l1 l2 l3 : List Char,
        textRead (thinkInk290.snprintf 1000000 (cToF32 1000000) 50).1
            (thinkInk290.snprintf 1000000 (cToF32 1000000) 50).2 =
          l1 ++ [' ', 'C'] ++ [Char.ofNat 10] ++ l2 ++ [' ', 'F'] ++ [Char.ofNat 10] ++ l3 ++
            [' ', '%'] := by
  have hf := formatReadings_long
  have hlast : (textRead (thinkInk290.snprintf 1000000 (cToF32 1000000) 50).1
      (thinkInk290.snprintf 1000000 (cToF32 1000000) 50).2).getLast? =
      some (Char.ofNat 0) := by
    simp only [thinkInk290, snprintf32, hf]
    decide
  refine ⟨?_, ?_, ?_⟩
  · simp only [thinkInk290, snprintf32, hf]
    rfl
  · simp only [thinkInk290, snprintf32, hf]
    decide
  · rintro ⟨l1, l2, l3, h⟩
    rw [h, List.getLast?_append] at hlast
    change some '%' = some (Char.ofNat 0) at hlast
    exact absurd hlast (by decide)

/-- C14 (P6, formatting), amended: with the C library's `snprintf`, for every stored
temperature and humidity for which it returns a length of at most 31 (the three
lines fit the buffer), the text `updateDisplay` formats and hands to
`drawPaddedText` is, in this order and separated by line breaks, the temperature
with 2 decimal places and " C", the `float` that `cToF` returns for it with 2
decimal places and " F", and the humidity with 2 decimal places and " %"; for 21.5
and 47.25 it is "21.50 C", "70.70 F", "47.25 %". -/
theorem C14_formatting (p : Platform) (st : ProgramState) (borderWidth : Int)
    (fillColor drawColor : Nat) (hp : p.snprintf = snprintf32)
    (hfit : (p.snprintf st.lastTemp (cToF32 st.lastTemp) st.lastHum).2 ≤ 31) :
    (∃ l1 l2 l3 : List Char,
        IsTwoDecimalPlaces st.lastTemp l1 ∧
        IsTwoDecimalPlaces (cToF32 st.lastTemp) l2 ∧
        IsTwoDecimalPlaces st.lastHum l3 ∧
        textRead (p.snprintf st.lastTemp (cToF32 st.lastTemp) st.lastHum).1
            (p.snprintf st.lastTemp (cToF32 st.lastTemp) st.lastHum).2 =
          l1 ++ [' ', 'C'] ++ [Char.ofNat 10] ++ l2 ++ [' ', 'F'] ++ [Char.ofNat 10] ++ l3 ++
            [' ', '%']) ∧
      updateDisplay p st borderWidth fillColor drawColor =
        SurfaceOp.fillScreen fillColor ::
          (drawBorder p borderWidth drawColor ++
            (drawPaddedText (15 * BORDER_WIDTH) (2 * BORDER_WIDTH)
                (p.snprintf st.lastTemp (cToF32 st.lastTemp) st.lastHum).1
                (p.snprintf st.lastTemp (cToF32 st.lastTemp) st.lastHum).2 drawColor ++
              [SurfaceOp.display])) ∧
      textRead (p.snprintf (43 / 2) (cToF32 (43 / 2)) (189 / 4)).1
          (p.snprintf (43 / 2) (cToF32 (43 / 2)) (189 / 4)).2 =
        ['2', '1', '.', '5', '0', ' ', 'C', Char.ofNat 10, '7', '0', '.', '7', '0', ' ', 'F',
          Char.ofNat 10, '4', '7', '.', '2', '5', ' ', '%'] := by
  have hs : ∀ t f h : ℚ, snprintf32 t f h =
      (fun i => if i < 31 then (formatReadings t f h).getD i (Char.ofNat 0) else Char.ofNat 0,
        ((formatReadings t f h).length : Int)) := fun _ _ _ => rfl
  refine ⟨?_, ?_, ?_⟩
  · rw [hp] at hfit ⊢
    rw [hs] at hfit ⊢
    have hlen : (formatReadings st.lastTemp (cToF32 st.lastTemp) st.lastHum).length ≤ 31 := by
      simp only at hfit
      exact_mod_cast hfit
    refine ⟨formatF2 st.lastTemp, formatF2 (cToF32 st.lastTemp), formatF2 st.lastHum,
      formatF2_spec _, formatF2_spec _, formatF2_spec _, ?_⟩
    rw [textRead_buffer _ hlen]
    simp only [formatReadings, List.append_assoc, List.cons_append, List.nil_append]
  · have hpos : 0 < (p.snprintf st.lastTemp (cToF32 st.lastTemp) st.lastHum).2 := by
      rw [hp]
      exact snprintf32_pos _ _ _
    unfold updateDisplay
    simp only
    rw [if_pos hpos, Int.mul_comm 15, Int.mul_comm 2]
    simp only [List.append_assoc, List.singleton_append, List.cons_append, List.nil_append]
  · rw [hp, hs, textRead_buffer _ (by rw [formatReadings_example]; decide),
      formatReadings_example]

/-- C14 on the panel of the sketch: at the readings 21.5 and 47.25, and at 0.375 and
0.125, where the text is "0.38 C", "32.67 F", "0.12 %". -/
theorem C14_formatting_witness :
    thinkInk290.snprintf = snprintf32 ∧
      (thinkInk290.snprintf (43 / 2) (cToF32 (43 / 2)) (189 / 4)).2 ≤ 31 ∧
      textRead (thinkInk290.snprintf (43 / 2) (cToF32 (43 / 2)) (189 / 4)).1
          (thinkInk290.snprintf (43 / 2) (cToF32 (43 / 2)) (189 / 4)).2 =
        ['2', '1', '.', '5', '0', ' ', 'C', Char.ofNat 10, '7', '0', '.', '7', '0', ' ', 'F',
          Char.ofNat 10, '4', '7', '.', '2', '5', ' ', '%'] ∧
      (thinkInk290.snprintf (3 / 8) (cToF32 (3 / 8)) (1 / 8)).2 ≤ 31 ∧
      (∃ l1 l2 l3 : List Char,
        IsTwoDecimalPlaces (3 / 8) l1 ∧ IsTwoDecimalPlaces (cToF32 (3 / 8)) l2 ∧
        IsTwoDecimalPlaces (1 / 8) l3 ∧
        textRead (thinkInk290.snprintf (3 / 8) (cToF32 (3 / 8)) (1 / 8)).1
            (thinkInk290.snprintf (3 / 8) (cToF32 (3 / 8)) (1 / 8)).2 =
          l1 ++ [' ', 'C'] ++ [Char.ofNat 10] ++ l2 ++ [' ', 'F'] ++ [Char.ofNat 10] ++ l3 ++
            [' ', '%']) :=
  have hfit : (thinkInk290.snprintf (43 / 2) (cToF32 (43 / 2)) (189 / 4)).2 ≤ 31 := by
    simp only [thinkInk290, snprintf32, formatReadings_example]
    decide
  have hfit2 : (thinkInk290.snprintf (3 / 8) (cToF32 (3 / 8)) (1 / 8)).2 ≤ 31 := by
    simp only [thinkInk290, snprintf32, formatReadings_rounded]
    decide
  ⟨rfl, hfit,
    (C14_formatting thinkInk290 { initialState with lastTemp := 43 / 2, lastHum := 189 / 4 }
      BORDER_WIDTH 0 1 rfl hfit).2.2,
    hfit2,
    (C14_formatting thinkInk290 { initialState with lastTemp := 3 / 8, lastHum := 1 / 8 }
      BORDER_WIDTH 0 1 rfl hfit2).1⟩

/-- C18: the length handed to `drawPaddedText` can exceed the buffer.  With a stored
temperature of 1000000 and humidity of 50, a display-due `loop()` call invokes
`updateDisplay`, `snprintf` returns 33, the length of the untruncated text, and the
scan runs over `text[0]` to `text[32]`, 33 reads for a buffer of 32 bytes. -/
theorem C18_length_exceeds_buffer :
    renderCalls (loop thinkInk290 (updateHumidity (updateTemp
        { initialState with previousUpdateMillis := 1000 } 1000000) 50) 301000 []).2 =
        [Event.updateDisplay 1000000 50] ∧
      (thinkInk290.snprintf 1000000 (cToF32 1000000) 50).2 = 33 ∧
      ¬ (thinkInk290.snprintf 1000000 (cToF32 1000000) 50).2 ≤ 31 ∧
      (textRead (thinkInk290.snprintf 1000000 (cToF32 1000000) 50).1
        (thinkInk290.snprintf 1000000 (cToF32 1000000) 50).2).length = 33 ∧
      (scanText (BORDER_WIDTH * 15) (BORDER_WIDTH * 2)
        (thinkInk290.snprintf 1000000 (cToF32 1000000) 50).1
        (thinkInk290.snprintf 1000000 (cToF32 1000000) 50).2
        (thinkInk290.snprintf 1000000 (cToF32 1000000) 50).2.toNat 0 0).length = 33 := by
  have hlen : (thinkInk290.snprintf 1000000 (cToF32 1000000) 50).2 = ((33 : Nat) : Int) := by
    simp only [thinkInk290, snprintf32, formatReadings_long]
    rfl
  refine ⟨?_, ?_, ?_, ?_, ?_⟩
  · rw [renderCalls_loop]
    decide
  · rw [hlen]; rfl
  · rw [hlen]; decide
  · rw [hlen, textRead_natCast, List.length_map, List.length_range']
  · rw [hlen, Int.toNat_ofNat]
    have h := scanText_enough (BORDER_WIDTH * 15) (BORDER_WIDTH * 2)
      (thinkInk290.snprintf 1000000 (cToF32 1000000) 50).1 33 0
    rw [Nat.add_zero] at h
    rw [h, scanSpec_length, textRead_natCast, List.length_map, List.length_range']

/-- C19 (the render timer restarts even when nothing is rendered): a `loop()` call
that starts with `previousUpdateMillis != 0`, finds the display timer due and the
condition of line 135 false stores `now` in `previousUpdateMillis`, does not invoke
`updateDisplay` and leaves the readings and the changed-flags as the display part
found them; handlers that run afterwards leave `previousUpdateMillis` at `now`, and
a later call on which the display due-check fails renders nothing. -/
theorem C19_timer_restart (p : Platform) (st : ProgramState) (now : Nat)
    (pending : List Message) (msgs : List Message) (later : Nat) (pending2 : List Message)
    (s2 : ProgramState) (h0 : st.previousUpdateMillis ≠ 0)
    (hdue : due now st.previousUpdateMillis DISPLAY_UPDATE_INTERVAL = true)
    (hw : renderWorthy (beforeDisplay st now pending) = false) :
    (loop p st now pending).1.previousUpdateMillis = now ∧
      renderCalls (loop p st now pending).2 = [] ∧
      Event.displayDue ∈ (loop p st now pending).2 ∧
      (loop p st now pending).1.lastTemp = (beforeDisplay st now pending).lastTemp ∧
      (loop p st now pending).1.lastHum = (beforeDisplay st now pending).lastHum ∧
      (loop p st now pending).1.tempUpdated = (beforeDisplay st now pending).tempUpdated ∧
      (loop p st now pending).1.humidityUpdated =
        (beforeDisplay st now pending).humidityUpdated ∧
      (deliver (loop p st now pending).1 msgs).previousUpdateMillis = now ∧
      (due later now DISPLAY_UPDATE_INTERVAL = false →
        renderCalls (loop p (deliver (loop p st now pending).1 msgs) later pending2).2 = []) ∧
      (due later s2.previousUpdateMillis DISPLAY_UPDATE_INTERVAL = false →
        renderCalls (loop p s2 later pending2).2 = []) := by
  obtain ⟨-, -, -, -, t5, -, -, t8⟩ := loop_timers p st now pending
  obtain ⟨v1, v2, hkeep⟩ := loop_after_display p st now pending
  have hnil : renderCalls (loop p st now pending).2 = [] := by
    rw [renderCalls_loop, if_neg]
    intro hc
    rw [hw] at hc
    exact absurd hc.2.2 (by decide)
  have hprev : (loop p st now pending).1.previousUpdateMillis = now := by
    rw [t8, if_pos (Or.inr hdue)]
  have hgen : ∀ s : ProgramState, due later s.previousUpdateMillis DISPLAY_UPDATE_INTERVAL = false →
      renderCalls (loop p s later pending2).2 = [] := by
    intro s hs
    rw [renderCalls_loop, if_neg]
    intro hc
    rw [hs] at hc
    exact absurd hc.2.1 (by decide)
  have hdel : (deliver (loop p st now pending).1 msgs).previousUpdateMillis = now := by
    rw [(deliver_timers _ msgs).2.2, hprev]
  refine ⟨hprev, hnil, t5.2 ⟨h0, hdue⟩, v1, v2, (hkeep hnil).1, (hkeep hnil).2, hdel, ?_,
    hgen s2⟩
  intro hl
  apply hgen
  rw [hdel]
  exact hl

/-- C19 at a concrete run: with only sentinel readings the display timer restarts
at 301000; a temperature of 21 arrives afterwards and the call at 400000, 99000 ms
later, does not render it. -/
theorem C19_timer_restart_witness :
    ({ initialState with previousUpdateMillis := 1000 } : ProgramState).previousUpdateMillis ≠ 0 ∧
      due 301000 ({ initialState with previousUpdateMillis := 1000 } :
        ProgramState).previousUpdateMillis DISPLAY_UPDATE_INTERVAL = true ∧
      renderWorthy (beforeDisplay { initialState with previousUpdateMillis := 1000 }
        301000 []) = false ∧
      (loop thinkInk290 { initialState with previousUpdateMillis := 1000 } 301000
        []).1.previousUpdateMillis = 301000 ∧
      due 400000 301000 DISPLAY_UPDATE_INTERVAL = false ∧
      renderCalls (loop thinkInk290
        (deliver (loop thinkInk290 { initialState with previousUpdateMillis := 1000 } 301000
          []).1 [Message.temp 21]) 400000 []).2 = [] :=
  ⟨by decide, by decide, by decide,
    (C19_timer_restart thinkInk290 { initialState with previousUpdateMillis := 1000 } 301000 []
      [Message.temp 21] 400000 [] initialState (by decide) (by decide) (by decide)).1,
    by decide,
    (C19_timer_restart thinkInk290 { initialState with previousUpdateMillis := 1000 } 301000 []
      [Message.temp 21] 400000 [] initialState (by decide) (by decide)
      (by decide)).2.2.2.2.2.2.2.2.1 (by decide)⟩

end TemperatureMonitor
